import Mathlib

/-!
Verification development for the SSWH multi-tenant solar-water-heater
control plane.  Each definition is a shallow embedding of the corresponding
TypeScript function; stores (Prisma tables) are modelled as lists of rows in
physical order, timestamps as integers (milliseconds), and JSON numbers as
rationals.  `findMany` without an `orderBy` clause returns rows in store
order; `findFirst`/`findUnique` return the first matching row.
-/

namespace SSWH

/-! ## Error model (src/common/errors.ts)

`AppError` carries an HTTP status, an error code, and a message.  The
constructors below mirror the subclasses of `AppError`. -/

structure AppErr where
  status : Nat
  code : String
  message : String
deriving DecidableEq, Repr

def notFoundError (entity : String) (id : String) : AppErr :=
  ⟨404, "NOT_FOUND", entity ++ " with id '" ++ id ++ "' not found"⟩

def forbiddenError (message : String) : AppErr :=
  ⟨403, "FORBIDDEN", message⟩

def unauthorizedError (message : String) : AppErr :=
  ⟨401, "UNAUTHORIZED", message⟩

def validationError (message : String) : AppErr :=
  ⟨400, "VALIDATION_ERROR", message⟩

def entitlementError (feature : String) : AppErr :=
  ⟨403, "FEATURE_DISABLED",
    "Feature '" ++ feature ++ "' is not enabled for this tenant/device. Contact your administrator."⟩

/-! ## Identity and tenancy (src/common/middleware/auth.ts, tenancy.ts) -/

inductive Role where
  | PLATFORM_ADMIN | TENANT_ADMIN | INSTALLER | SUPPORT_AGENT | END_USER
deriving DecidableEq, Repr

structure Membership where
  tenantId : String
  role : Role
deriving DecidableEq, Repr

structure UserCtx where
  userId : String
  memberships : List Membership
deriving DecidableEq, Repr

/-- JavaScript `a || b` on optional strings: the empty string is falsy, so it
falls through to the right operand. -/
def jsOr (a b : Option String) : Option String :=
  match a with
  | some s => if s = "" then b else some s
  | none => b

/-- Resolution of the active tenant id:
`req.params.tenantId || req.headers['x-tenant-id'] || req.query.tenantId`.
A `some s` result always has `s ≠ ""`; an all-falsy chain is normalised to
`none` (the code only ever tests the result for truthiness). -/
def resolveTid (paramsTid headerTid queryTid : Option String) : Option String :=
  match jsOr (jsOr paramsTid headerTid) queryTid with
  | some s => if s = "" then none else some s
  | none => none

/-- `enforceTenancy` (src/common/middleware/tenancy.ts).  Returns the
`req.tenantId` assignment on success (`none` when a platform admin acts
without a tenant, or for device-authenticated requests which skip the
middleware body). -/
def enforceTenancy (isDeviceAuth : Bool) (user : Option UserCtx)
    (paramsTid headerTid queryTid : Option String) : Except AppErr (Option String) :=
  if isDeviceAuth then .ok none
  else match user with
  | none => .error (forbiddenError "User context required")
  | some u =>
    let tid := resolveTid paramsTid headerTid queryTid
    let isPlatformAdmin := u.memberships.any fun m => decide (m.role = Role.PLATFORM_ADMIN)
    if tid = none ∧ isPlatformAdmin = false then
      .error (validationError "x-tenant-id header or tenantId parameter is required")
    else match tid with
    | some t =>
      if isPlatformAdmin = false ∧
          (u.memberships.find? fun m => decide (m.tenantId = t)) = none then
        .error (forbiddenError "Access denied: not a member of this tenant")
      else .ok (some t)
    | none => .ok none

/-- C6 counterexample input: a user whose only membership is TENANT_ADMIN in
tenant "B", supplying no tenant id anywhere. -/
def c6User : UserCtx := ⟨"u1", [⟨"B", Role.TENANT_ADMIN⟩]⟩

/-- C6 — counterexample.  A non-PLATFORM_ADMIN request with no tenant id in
path, header or query fails with code VALIDATION_ERROR and HTTP 400, not with
the FORBIDDEN code and HTTP 403 the claim states. -/
theorem enforceTenancy_missing_tenant_not_forbidden :
    enforceTenancy false (some c6User) none none none =
      .error (validationError "x-tenant-id header or tenantId parameter is required") ∧
    (validationError "x-tenant-id header or tenantId parameter is required").code =
      "VALIDATION_ERROR" ∧
    (validationError "x-tenant-id header or tenantId parameter is required").status = 400 ∧
    "VALIDATION_ERROR" ≠ "FORBIDDEN" ∧ (400 : Nat) ≠ 403 := by
  refine ⟨rfl, rfl, rfl, by decide, by decide⟩

/-- C6 (amended): for every authenticated non-PLATFORM_ADMIN user whose
request resolves no tenant id from path, header or query, `enforceTenancy`
fails with the VALIDATION_ERROR code (HTTP 400). -/
theorem enforceTenancy_missing_tenant_validation
    (u : UserCtx) (p h q : Option String)
    (hnoadmin : ∀ m ∈ u.memberships, m.role ≠ Role.PLATFORM_ADMIN)
    (hres : resolveTid p h q = none) :
    enforceTenancy false (some u) p h q =
      .error (validationError "x-tenant-id header or tenantId parameter is required") := by
  have hadm : (u.memberships.any fun m => decide (m.role = Role.PLATFORM_ADMIN)) = false := by
    simp only [List.any_eq_false, decide_eq_true_eq]
    exact hnoadmin
  simp [enforceTenancy, hres, hadm]

/-- Witness for the amended C6 theorem at the concrete counterexample input. -/
theorem enforceTenancy_missing_tenant_validation_witness :
    enforceTenancy false (some c6User) none none none =
      .error (validationError "x-tenant-id header or tenantId parameter is required") :=
  enforceTenancy_missing_tenant_validation c6User none none none
    (by intro m hm; simp [c6User] at hm; subst hm; decide) rfl

/-! ## Entitlement gate (src/modules/entitlements/router.ts) -/

inductive EScope where
  | TENANT | DEVICE
deriving DecidableEq, Repr

structure Entitlement where
  tenantId : String
  scope : EScope
  deviceId : Option String
  key : String
  enabled : Bool
deriving DecidableEq, Repr

/-- The `where` filter of the scope-DEVICE `findFirst` in `checkEntitlement`. -/
def devMatch (t k d : String) (e : Entitlement) : Prop :=
  e.tenantId = t ∧ e.key = k ∧ e.deviceId = some d ∧ e.scope = EScope.DEVICE

/-- The `where` filter of the scope-TENANT `findFirst` in `checkEntitlement`. -/
def tenMatch (t k : String) (e : Entitlement) : Prop :=
  e.tenantId = t ∧ e.key = k ∧ e.scope = EScope.TENANT ∧ e.deviceId = none

instance (t k d : String) (e : Entitlement) : Decidable (devMatch t k d e) := by
  unfold devMatch; infer_instance

instance (t k : String) (e : Entitlement) : Decidable (tenMatch t k e) := by
  unfold tenMatch; infer_instance

/-- `checkEntitlement` (src/modules/entitlements/router.ts:28-46).  The
`if (deviceId)` truthiness test skips the device branch for an absent or
empty device id. -/
def checkEntitlement (rows : List Entitlement) (tenantId key : String)
    (deviceId : Option String) : Bool :=
  let devHit : Option Entitlement :=
    match deviceId with
    | some d => if d = "" then none else rows.find? fun e => decide (devMatch tenantId key d e)
    | none => none
  match devHit with
  | some e => e.enabled
  | none =>
    let tenHit := rows.find? fun e => decide (tenMatch tenantId key e)
    match tenHit with
    | none => decide (key = "BASIC_REMOTE_BOOST")
    | some e => e.enabled

/-- `requireEntitlement` middleware (src/modules/entitlements/router.ts:51-65):
skips the check when no tenant context was set, else fails FEATURE_DISABLED
when `checkEntitlement` is false.  The probed device id is
`req.params.id || req.params.deviceId`. -/
def requireEntitlement (key : String) (tenantId : Option String)
    (paramsId paramsDeviceId : Option String) (rows : List Entitlement) :
    Except AppErr Unit :=
  match tenantId with
  | none => .ok ()
  | some t =>
    if checkEntitlement rows t key (jsOr paramsId paramsDeviceId) then .ok ()
    else .error (entitlementError key)

/-- `find?` returns the unique member satisfying the predicate. -/
theorem find?_eq_of_unique {α : Type} {p : α → Bool} {l : List α} {a : α}
    (ha : a ∈ l) (hpa : p a = true) (huniq : ∀ b ∈ l, p b = true → b = a) :
    l.find? p = some a := by
  induction l with
  | nil => cases ha
  | cons b t ih =>
    by_cases hb : p b = true
    · have : b = a := huniq b (List.mem_cons_self b t) hb
      subst this
      simp [List.find?, hb]
    · have hba : b ≠ a := fun h => hb (h ▸ hpa)
      have hat : a ∈ t := by
        rcases List.mem_cons.mp ha with h | h
        · exact absurd h.symm hba
        · exact h
      simp only [List.find?, Bool.not_eq_true] at hb ⊢
      rw [hb]
      exact ih hat fun b' hb' => huniq b' (List.mem_cons_of_mem _ hb')

/-- C4: entitlement resolution precedence.  (1) A unique scope-DEVICE row for
the probed device wins; (2) otherwise a unique scope-TENANT row wins;
(3) otherwise the default is true exactly for BASIC_REMOTE_BOOST; and (4) a
gated operation whose entitlement resolves to false fails with the
FEATURE_DISABLED code (HTTP 403).  Device ids are non-empty strings. -/
theorem checkEntitlement_spec (rows : List Entitlement) (t k : String)
    (did : Option String) :
    (∀ d, did = some d → d ≠ "" →
      ∀ e ∈ rows, devMatch t k d e →
        (∀ e' ∈ rows, devMatch t k d e' → e' = e) →
        checkEntitlement rows t k did = e.enabled) ∧
    ((∀ d, did = some d → ∀ e ∈ rows, ¬ devMatch t k d e) →
      (∀ e ∈ rows, tenMatch t k e →
        (∀ e' ∈ rows, tenMatch t k e' → e' = e) →
        checkEntitlement rows t k did = e.enabled) ∧
      ((∀ e ∈ rows, ¬ tenMatch t k e) →
        checkEntitlement rows t k did = decide (k = "BASIC_REMOTE_BOOST"))) ∧
    (∀ t' pid pdid, checkEntitlement rows t' k (jsOr pid pdid) = false →
      requireEntitlement k (some t') pid pdid rows = .error (entitlementError k) ∧
      (entitlementError k).status = 403 ∧ (entitlementError k).code = "FEATURE_DISABLED") := by
  refine ⟨?_, ?_, ?_⟩
  · intro d hdid hne e he hme huniq
    subst hdid
    have hfind :
        (rows.find? fun e' => decide (devMatch t k d e')) = some e :=
      find?_eq_of_unique he (by simpa using hme)
        (fun b hb hpb => huniq b hb (by simpa using hpb))
    simp [checkEntitlement, hne, hfind]
  · intro hnodev
    constructor
    · intro e he hme huniq
      have hfind : (rows.find? fun e' => decide (tenMatch t k e')) = some e :=
        find?_eq_of_unique he (by simpa using hme)
          (fun b hb hpb => huniq b hb (by simpa using hpb))
      cases did with
      | none => simp [checkEntitlement, hfind]
      | some d =>
        by_cases hd : d = ""
        · subst hd; simp [checkEntitlement, hfind]
        · have hdev : (rows.find? fun e' => decide (devMatch t k d e')) = none := by
            rw [List.find?_eq_none]
            intro x hx
            simpa using hnodev d rfl x hx
          simp [checkEntitlement, hd, hdev, hfind]
    · intro hnoten
      have hfind : (rows.find? fun e => decide (tenMatch t k e)) = none := by
        rw [List.find?_eq_none]
        intro e he
        simpa using hnoten e he
      cases did with
      | none => simp [checkEntitlement, hfind]
      | some d =>
        by_cases hd : d = ""
        · subst hd; simp [checkEntitlement, hfind]
        · have hdev : (rows.find? fun e' => decide (devMatch t k d e')) = none := by
            rw [List.find?_eq_none]
            intro x hx
            simpa using hnodev d rfl x hx
          simp [checkEntitlement, hd, hdev, hfind]
  · intro t' pid pdid hfalse
    refine ⟨?_, rfl, rfl⟩
    simp [requireEntitlement, hfalse]

/-- Witness for C4 at a concrete store: a disabled scope-DEVICE row overrides
an enabled scope-TENANT row; with neither row, BASIC_REMOTE_BOOST defaults to
true; and the disabled resolution gates with FEATURE_DISABLED. -/
theorem checkEntitlement_spec_witness :
    checkEntitlement
        [⟨"T1", EScope.DEVICE, some "D1", "BASIC_REMOTE_BOOST", false⟩,
         ⟨"T1", EScope.TENANT, none, "BASIC_REMOTE_BOOST", true⟩]
        "T1" "BASIC_REMOTE_BOOST" (some "D1") = false ∧
    checkEntitlement [] "T1" "BASIC_REMOTE_BOOST" (some "D1") = true ∧
    requireEntitlement "BASIC_REMOTE_BOOST" (some "T1") (some "D1") none
        [⟨"T1", EScope.DEVICE, some "D1", "BASIC_REMOTE_BOOST", false⟩,
         ⟨"T1", EScope.TENANT, none, "BASIC_REMOTE_BOOST", true⟩] =
      .error (entitlementError "BASIC_REMOTE_BOOST") := by
  have h1 := (checkEntitlement_spec
    [⟨"T1", EScope.DEVICE, some "D1", "BASIC_REMOTE_BOOST", false⟩,
     ⟨"T1", EScope.TENANT, none, "BASIC_REMOTE_BOOST", true⟩]
    "T1" "BASIC_REMOTE_BOOST" (some "D1")).1 "D1" rfl (by decide)
    ⟨"T1", EScope.DEVICE, some "D1", "BASIC_REMOTE_BOOST", false⟩
    (by decide) (by decide) (by decide)
  have h2 := ((checkEntitlement_spec [] "T1" "BASIC_REMOTE_BOOST" (some "D1")).2.1
    (by intro d _ e he; cases he)).2 (by intro e he; cases he)
  have h3 := ((checkEntitlement_spec
    [⟨"T1", EScope.DEVICE, some "D1", "BASIC_REMOTE_BOOST", false⟩,
     ⟨"T1", EScope.TENANT, none, "BASIC_REMOTE_BOOST", true⟩]
    "T1" "BASIC_REMOTE_BOOST" (some "D1")).2.2 "T1" (some "D1") none
    (by simpa [jsOr] using h1)).1
  exact ⟨h1, by rw [h2]; decide, h3⟩

/-! ## JSON metric values and JavaScript numeric coercion

Telemetry metrics are a free-form map of numbers, booleans and strings
(`z.record(z.union([z.number(), z.boolean(), z.string()]))`).  JavaScript
relational comparisons against a number coerce the other operand with
`ToNumber`; `jsStrToNum` below models `ToNumber` on string operands
(ASCII whitespace trimming, signed decimal literals with optional fraction
and exponent, `Infinity`, and unsigned hex/octal/binary literals; a `none`
result models NaN). -/

inductive MetricValue where
  | num (q : Rat)
  | boolV (b : Bool)
  | str (s : String)
deriving DecidableEq, Repr

inductive JSNum where
  | finite (q : Rat)
  | posInf
  | negInf
deriving DecidableEq, Repr

def isWsChar (c : Char) : Bool :=
  c = ' ' ∨ c = '\t' ∨ c = '\n' ∨ c = '\r' ∨ c = '\x0b' ∨ c = '\x0c'

def trimWs (cs : List Char) : List Char :=
  ((cs.dropWhile isWsChar).reverse.dropWhile isWsChar).reverse

def digitVal (c : Char) : Option Nat :=
  List.lookup c [('0',0),('1',1),('2',2),('3',3),('4',4),('5',5),('6',6),('7',7),('8',8),('9',9)]

def hexDigitVal (c : Char) : Option Nat :=
  List.lookup c [('0',0),('1',1),('2',2),('3',3),('4',4),('5',5),('6',6),('7',7),('8',8),('9',9),
    ('a',10),('b',11),('c',12),('d',13),('e',14),('f',15),
    ('A',10),('B',11),('C',12),('D',13),('E',14),('F',15)]

/-- Fold a non-empty list of digits in the given base; `none` on any
non-digit. -/
def foldDigits (dv : Char → Option Nat) (base : Nat) : List Char → Option Nat
  | [] => none
  | cs => cs.foldl (fun acc c =>
      match acc, dv c with
      | some n, some d => some (n * base + d)
      | _, _ => none) (some 0)

/-- Split a char list at the first occurrence of any separator in `seps`. -/
def splitOnce (seps : List Char) : List Char → (List Char × Option (List Char))
  | [] => ([], none)
  | c :: cs =>
    if c ∈ seps then ([], some cs)
    else
      let r := splitOnce seps cs
      (c :: r.1, r.2)

def parseSignedInt (cs : List Char) : Option Int :=
  match cs with
  | '-' :: rest => (foldDigits digitVal 10 rest).map fun n => -(n : Int)
  | '+' :: rest => (foldDigits digitVal 10 rest).map fun n => (n : Int)
  | rest => (foldDigits digitVal 10 rest).map fun n => (n : Int)

/-- Unsigned decimal literal `a[.b][e±c] | .b[e±c] | a.[e±c]`; the whole
input must be consumed. -/
def parseUnsignedDec (cs : List Char) : Option Rat :=
  let (mant, expPart) := splitOnce ['e', 'E'] cs
  let expOpt : Option Int :=
    match expPart with
    | none => some 0
    | some ecs => parseSignedInt ecs
  match expOpt with
  | none => none
  | some exp =>
    let (ip, fpOpt) := splitOnce ['.'] mant
    let fp := fpOpt.getD []
    if ip = [] ∧ fp = [] then none
    else
      let ipN : Option Nat := if ip = [] then some 0 else foldDigits digitVal 10 ip
      let fpN : Option Nat := if fp = [] then some 0 else foldDigits digitVal 10 fp
      match ipN, fpN with
      | some a, some b =>
        let m : Int := (a : Int) * (10 : Int) ^ fp.length + (b : Int)
        let e : Int := exp - (fp.length : Int)
        some (if 0 ≤ e then mkRat (m * (10 : Int) ^ e.toNat) 1 else mkRat m ((10 : Nat) ^ (-e).toNat))
      | _, _ => none

def jsStrToNum (s : String) : Option JSNum :=
  let cs := trimWs s.data
  if cs = [] then some (.finite 0)
  else
    match cs with
    | '0' :: 'x' :: rest => (foldDigits hexDigitVal 16 rest).map fun n => .finite (mkRat n 1)
    | '0' :: 'X' :: rest => (foldDigits hexDigitVal 16 rest).map fun n => .finite (mkRat n 1)
    | '0' :: 'o' :: rest => (foldDigits digitVal 8 rest).map fun n => .finite (mkRat n 1)
    | '0' :: 'O' :: rest => (foldDigits digitVal 8 rest).map fun n => .finite (mkRat n 1)
    | '0' :: 'b' :: rest => (foldDigits digitVal 2 rest).map fun n => .finite (mkRat n 1)
    | '0' :: 'B' :: rest => (foldDigits digitVal 2 rest).map fun n => .finite (mkRat n 1)
    | _ =>
      let (sign, body) :=
        match cs with
        | '-' :: rest => (false, rest)
        | '+' :: rest => (true, rest)
        | rest => (true, rest)
      if body = "Infinity".data then some (if sign then .posInf else .negInf)
      else (parseUnsignedDec body).map fun q => .finite (if sign then q else -q)

def MetricValue.toNum : MetricValue → Option JSNum
  | .num q => some (.finite q)
  | .boolV b => some (.finite (if b then 1 else 0))
  | .str s => jsStrToNum s

/-- JavaScript `v < c` for a numeric right operand (NaN comparisons are
false). -/
def MetricValue.jsLt (v : MetricValue) (c : Rat) : Bool :=
  match v.toNum with
  | some (.finite q) => q < c
  | some .posInf => false
  | some .negInf => true
  | none => false

/-- JavaScript `v > c` for a numeric right operand. -/
def MetricValue.jsGt (v : MetricValue) (c : Rat) : Bool :=
  match v.toNum with
  | some (.finite q) => c < q
  | some .posInf => true
  | some .negInf => false
  | none => false

/-- JavaScript truthiness of a metric value (`0`, `false` and `""` are
falsy; rationals have no NaN). -/
def MetricValue.truthy : MetricValue → Bool
  | .num q => q ≠ 0
  | .boolV b => b
  | .str s => s ≠ ""

/-! ## Telemetry ingest: site geolocation reconciliation (C3)

`src/modules/telemetry/router.ts`, handler lines 159-206. -/

structure Geo where
  lat : Rat
  lon : Rat
  accuracyM : Option Rat
  source : String
deriving DecidableEq, Repr

structure Site where
  id : String
  tenantId : String
  lat : Option Rat
  lon : Option Rat
  locationLock : Bool
  locationSource : Option String
  locationAccuracyM : Option Rat
  locationUpdatedAt : Option Int
deriving DecidableEq, Repr

/-- Effect of one telemetry ingest on the device's Site row (the handler's
`shouldUpdateSite` block).  The large-jump branch only appends an audit
record and never writes to the Site, so it does not appear in the Site
result.  `site` is `none` when the device is not bound to a site
(`device.siteId`/`device.site` falsy). -/
def ingestSiteUpdate (geo : Option Geo) (site : Option Site) (now : Int) : Option Site :=
  match geo, site with
  | some g, some s =>
    if s.locationLock = false ∧ ((s.lat = none ∧ s.lon = none) ∨ s.lat = none) then
      some { s with lat := some g.lat, lon := some g.lon,
                    locationSource := some g.source,
                    locationAccuracyM := g.accuracyM,
                    locationUpdatedAt := some now }
    else some s
  | _, s => s

/-- C3: location lock.  A telemetry ingest never changes any field of a
Site whose `locationLock` is set, whatever geo payload the device reports. -/
theorem ingestSiteUpdate_locked (geo : Option Geo) (s : Site) (now : Int)
    (hlock : s.locationLock = true) :
    ingestSiteUpdate geo (some s) now = some s := by
  cases geo with
  | none => rfl
  | some g => simp [ingestSiteUpdate, hlock]

/-- Witness for C3: a locked site at (37975/1000, 23735/1000) is untouched by
an ingest reporting a far-away location. -/
theorem ingestSiteUpdate_locked_witness :
    ingestSiteUpdate (some ⟨mkRat 385 10, mkRat 245 10, none, "EDGE_GNSS"⟩)
        (some ⟨"S1", "T1", some (mkRat 37975 1000), some (mkRat 23735 1000),
               true, some "MANUAL", none, none⟩) 1700000000000 =
      some ⟨"S1", "T1", some (mkRat 37975 1000), some (mkRat 23735 1000),
            true, some "MANUAL", none, none⟩ :=
  ingestSiteUpdate_locked _ _ _ rfl

/-! ## Device twin derived state (C5)

`computeDerivedState` (src/modules/telemetry/router.ts:47-77).  A JSON
object is modelled as an association list read through `aget` (first match
wins); property assignment conses a new binding, which shadows older ones —
extensionally the same as in-place update.  Assigning `undefined`
(`metrics.k ?? state.k` with both absent) is observationally a no-op and is
modelled as one. -/

abbrev Metrics := List (String × MetricValue)

abbrev DState := List (String × MetricValue)

def aget : List (String × MetricValue) → String → Option MetricValue
  | [], _ => none
  | (k', v) :: t, k => if k = k' then some v else aget t k

def dsSet (st : DState) (k : String) (v : MetricValue) : DState :=
  (k, v) :: st

def dsSetOpt (st : DState) (k : String) : Option MetricValue → DState
  | some v => dsSet st k v
  | none => st

def computeDerivedState (metrics : Metrics) (geo : Option Geo) (existing : DState) : DState :=
  let st := metrics.foldl (fun s kv => dsSet s ("last_" ++ kv.1) kv.2) existing
  let st := dsSet st "isOnline" (.boolV true)
  let st := dsSetOpt st "lastRssi" ((aget metrics "rssiDbm").or (aget st "lastRssi"))
  let st := dsSetOpt st "lastTankTempC" ((aget metrics "tankTempC").or (aget st "lastTankTempC"))
  let st := dsSetOpt st "lastAmbientTempC"
    ((aget metrics "ambientTempC").or (aget st "lastAmbientTempC"))
  let st := dsSetOpt st "heaterOn" ((aget metrics "heaterOn").or (aget st "heaterOn"))
  let st := dsSetOpt st "lastPowerW" ((aget metrics "powerW").or (aget st "lastPowerW"))
  let health : Int := 100
  let health := if (aget metrics "rssiDbm").elim false (fun v => v.jsLt (-100)) then
    health - 20 else health
  let health := if (aget metrics "batteryPct").elim false (fun v => v.jsLt 20) then
    health - 30 else health
  let health := if (aget metrics "tankTempC").elim false (fun v => v.jsGt 85) then
    health - 20 else health
  let st := dsSet st "healthScore" (.num (mkRat (max 0 health) 1))
  match geo with
  | some g =>
    dsSet (dsSet (dsSet st "lastGeoLat" (.num g.lat)) "lastGeoLon" (.num g.lon))
      "lastGeoSource" (.str g.source)
  | none => st

theorem str_eq_of_data_eq {a b : String} (h : a.data = b.data) : a = b := by
  cases a; cases b; exact congrArg String.mk h

theorem aget_dsSet (st : DState) (k k' : String) (v : MetricValue) :
    aget (dsSet st k v) k' = if k' = k then some v else aget st k' := rfl

theorem aget_dsSetOpt_ne (st : DState) (k k' : String) (o : Option MetricValue)
    (h : k' ≠ k) : aget (dsSetOpt st k o) k' = aget st k' := by
  cases o with
  | none => rfl
  | some v => simp [dsSetOpt, aget_dsSet, h]

/-- A mirror key `"last_" ++ k` never equals a string whose first five
characters are not `l,a,s,t,_`. -/
theorem mirror_key_ne (k : String) (s : String)
    (h : s.data.take 5 ≠ "last_".data) : ("last_" ++ k) ≠ s := by
  intro heq
  apply h
  have hd : ("last_" ++ k).data = s.data := congrArg String.data heq
  rw [String.data_append] at hd
  have : ("last_".data ++ k.data).take 5 = "last_".data := by
    have h5 : "last_".data.length = 5 := by decide
    rw [← h5, List.take_left]
  rw [← hd, this]

theorem mirror_key_inj {a b : String} (h : ("last_" ++ a) = ("last_" ++ b)) :
    a = b := by
  have hd := congrArg String.data h
  rw [String.data_append, String.data_append] at hd
  exact str_eq_of_data_eq (List.append_cancel_left hd)

theorem aget_mirror_preserve (m : List (String × MetricValue)) (st : DState) (k' : String)
    (h : ∀ kv ∈ m, ("last_" ++ kv.1) ≠ k') :
    aget (m.foldl (fun s kv => dsSet s ("last_" ++ kv.1) kv.2) st) k' = aget st k' := by
  induction m generalizing st with
  | nil => rfl
  | cons kv t ih =>
    rw [List.foldl_cons, ih _ (fun x hx => h x (List.mem_cons_of_mem _ hx)),
      aget_dsSet]
    have : k' ≠ "last_" ++ kv.1 := fun he => h kv (List.mem_cons_self _ _) he.symm
    simp [this]

theorem aget_mirror_hit (m : List (String × MetricValue)) (st : DState)
    (k : String) (v : MetricValue)
    (hnd : (m.map Prod.fst).Nodup) (hmem : (k, v) ∈ m) :
    aget (m.foldl (fun s kv => dsSet s ("last_" ++ kv.1) kv.2) st) ("last_" ++ k) = some v := by
  induction m generalizing st with
  | nil => cases hmem
  | cons kv t ih =>
    rw [List.map_cons] at hnd
    have h1 : kv.1 ∉ t.map Prod.fst := (List.nodup_cons.mp hnd).1
    have h2 : (t.map Prod.fst).Nodup := (List.nodup_cons.mp hnd).2
    rcases List.mem_cons.mp hmem with he | ht
    · subst he
      rw [List.foldl_cons]
      rw [aget_mirror_preserve t _ ("last_" ++ k) ?hne]
      · rw [aget_dsSet]
        simp
      case hne =>
        intro x hx he2
        have hx1 : x.1 = k := mirror_key_inj he2
        have hmm : x.1 ∈ t.map Prod.fst := List.mem_map_of_mem Prod.fst hx
        rw [hx1] at hmm
        exact h1 hmm
    · rw [List.foldl_cons]
      exact ih _ h2 ht

/-- The three health deductions of C5, written from the claim: 20 when the
incoming `rssiDbm` compares below −100, 30 when `batteryPct` compares below
20, 20 when `tankTempC` compares above 85. -/
def healthDeduction (m : Metrics) : Int :=
  (if (aget m "rssiDbm").elim false (fun v => v.jsLt (-100)) then 20 else 0) +
  (if (aget m "batteryPct").elim false (fun v => v.jsLt 20) then 30 else 0) +
  (if (aget m "tankTempC").elim false (fun v => v.jsGt 85) then 20 else 0)

/-- C5: after `computeDerivedState`, the twin's `healthScore` equals
`max 0 (100 − d)` with `d` the sum of the three deductions, `isOnline` is
`true`, and every incoming metric `k = v` is mirrored at key `last_k`.
Metric keys are distinct, as in any JavaScript object. -/
theorem computeDerivedState_spec (m : Metrics) (geo : Option Geo) (ex : DState)
    (hnd : (m.map Prod.fst).Nodup) :
    aget (computeDerivedState m geo ex) "healthScore" =
      some (.num (mkRat (max 0 (100 - healthDeduction m)) 1)) ∧
    aget (computeDerivedState m geo ex) "isOnline" = some (.boolV true) ∧
    ∀ k v, (k, v) ∈ m → aget (computeDerivedState m geo ex) ("last_" ++ k) = some v := by
  have hgeo : ∀ (st : DState) (k' : String),
      k' ≠ "lastGeoLat" → k' ≠ "lastGeoLon" → k' ≠ "lastGeoSource" →
      aget (match geo with
        | some g =>
          dsSet (dsSet (dsSet st "lastGeoLat" (.num g.lat)) "lastGeoLon" (.num g.lon))
            "lastGeoSource" (.str g.source)
        | none => st) k' = aget st k' := by
    intro st k' h1 h2 h3
    cases geo with
    | none => rfl
    | some g => simp [aget_dsSet, h1, h2, h3]
  have harith : ∀ b1 b2 b3 : Bool,
      (if b3 then (if b2 then (if b1 then (100:Int) - 20 else 100) - 30
          else (if b1 then (100:Int) - 20 else 100)) - 20
        else (if b2 then (if b1 then (100:Int) - 20 else 100) - 30
          else (if b1 then (100:Int) - 20 else 100))) =
      100 - ((if b1 then 20 else 0) + (if b2 then 30 else 0) + (if b3 then 20 else 0)) := by
    decide
  refine ⟨?_, ?_, ?_⟩
  · simp only [computeDerivedState]
    rw [hgeo _ _ (by decide) (by decide) (by decide)]
    simp only [healthDeduction]
    rw [← harith]
    rw [aget_dsSet]
    simp
  · simp only [computeDerivedState]
    rw [hgeo _ _ (by decide) (by decide) (by decide)]
    rw [aget_dsSet, if_neg (by decide : ¬ ("isOnline" = "healthScore"))]
    rw [aget_dsSetOpt_ne _ _ _ _ (by decide)]
    rw [aget_dsSetOpt_ne _ _ _ _ (by decide)]
    rw [aget_dsSetOpt_ne _ _ _ _ (by decide)]
    rw [aget_dsSetOpt_ne _ _ _ _ (by decide)]
    rw [aget_dsSetOpt_ne _ _ _ _ (by decide)]
    rw [aget_dsSet]
    simp
  · intro k v hmem
    simp only [computeDerivedState]
    rw [hgeo _ _ (mirror_key_ne _ _ (by decide)) (mirror_key_ne _ _ (by decide))
      (mirror_key_ne _ _ (by decide))]
    rw [aget_dsSet, if_neg (mirror_key_ne k "healthScore" (by decide))]
    rw [aget_dsSetOpt_ne _ _ _ _ (mirror_key_ne k "lastPowerW" (by decide))]
    rw [aget_dsSetOpt_ne _ _ _ _ (mirror_key_ne k "heaterOn" (by decide))]
    rw [aget_dsSetOpt_ne _ _ _ _ (mirror_key_ne k "lastAmbientTempC" (by decide))]
    rw [aget_dsSetOpt_ne _ _ _ _ (mirror_key_ne k "lastTankTempC" (by decide))]
    rw [aget_dsSetOpt_ne _ _ _ _ (mirror_key_ne k "lastRssi" (by decide))]
    rw [aget_dsSet, if_neg (mirror_key_ne k "isOnline" (by decide))]
    exact aget_mirror_hit m ex k v hnd hmem

/-- Witness for C5: the spec's S2 reading (tankTempC 582/10, rssiDbm −88,
batteryPct 92, heaterOn, powerW 1800) yields healthScore 100, isOnline true,
and mirrored `last_` keys. -/
theorem computeDerivedState_spec_witness :
    aget (computeDerivedState
        [("tankTempC", .num (mkRat 582 10)), ("rssiDbm", .num (-88)),
         ("batteryPct", .num 92), ("heaterOn", .boolV true), ("powerW", .num 1800)]
        none []) "healthScore" = some (.num (mkRat 100 1)) ∧
    aget (computeDerivedState
        [("tankTempC", .num (mkRat 582 10)), ("rssiDbm", .num (-88)),
         ("batteryPct", .num 92), ("heaterOn", .boolV true), ("powerW", .num 1800)]
        none []) "last_tankTempC" = some (.num (mkRat 582 10)) := by
  have h := computeDerivedState_spec
    [("tankTempC", .num (mkRat 582 10)), ("rssiDbm", .num (-88)),
     ("batteryPct", .num 92), ("heaterOn", .boolV true), ("powerW", .num 1800)]
    none [] (by decide)
  refine ⟨?_, ?_⟩
  · rw [h.1]
    have : healthDeduction
        [("tankTempC", .num (mkRat 582 10)), ("rssiDbm", .num (-88)),
         ("batteryPct", .num 92), ("heaterOn", .boolV true), ("powerW", .num 1800)] = 0 := by
      decide
    rw [this]
    decide
  · have := h.2.2 "tankTempC" (.num (mkRat 582 10)) (by decide)
    simpa using this

/-! ## Command queue (src/modules/commands/router.ts) -/

inductive CommandStatus where
  | QUEUED | DELIVERED | ACKED | FAILED | EXPIRED
deriving DecidableEq, Repr

structure Command where
  id : String
  deviceId : String
  ctype : String
  status : CommandStatus
  requestedByUserId : Option String
  requestedAt : Int
  deliveredAt : Option Int
  ackAt : Option Int
  errorMsg : Option String
deriving DecidableEq, Repr

inductive AckStatus where
  | ACKED | FAILED
deriving DecidableEq, Repr

def AckStatus.toCommandStatus : AckStatus → CommandStatus
  | .ACKED => .ACKED
  | .FAILED => .FAILED

/-- JavaScript `s || null` on an optional string (empty string becomes
null). -/
def jsStrOrNull : Option String → Option String
  | some s => if s = "" then none else some s
  | none => none

def cmdLe (a b : Command) : Prop := a.requestedAt ≤ b.requestedAt

instance : DecidableRel cmdLe := fun a b => by unfold cmdLe; infer_instance

instance : IsTotal Command cmdLe := ⟨fun a b => Int.le_total _ _⟩

instance : IsTrans Command cmdLe := ⟨fun _ _ _ => Int.le_trans⟩

/-- The `findMany` of the pending poll: QUEUED commands of the device,
ordered by `requestedAt` ascending. -/
def pendingQueue (store : List Command) (pathDid : String) : List Command :=
  List.insertionSort cmdLe
    (store.filter fun c => decide (c.deviceId = pathDid ∧ c.status = CommandStatus.QUEUED))

/-- The `updateMany` of the pending poll: every row whose id is in `ids`
becomes DELIVERED with `deliveredAt = now`. -/
def deliverCmds (store : List Command) (ids : List String) (now : Int) : List Command :=
  store.map fun c =>
    if ids.contains c.id then
      { c with status := CommandStatus.DELIVERED, deliveredAt := some now }
    else c

/-- GET `/:id/commands/pending` (router.ts:101-127).  Selects the QUEUED
commands of the path device ordered by `requestedAt` ascending, and (when
non-empty) flips them to DELIVERED with `deliveredAt = now` before the
response is produced.  Returns the response rows and the store after the
update. -/
def pendingPoll (tokDid pathDid : String) (store : List Command) (now : Int) :
    Except AppErr (List Command × List Command) :=
  if tokDid ≠ pathDid then .error (forbiddenError "Device ID mismatch")
  else
    let commands := pendingQueue store pathDid
    .ok (commands,
      if 0 < commands.length then deliverCmds store (commands.map (·.id)) now else store)

/-- The row written by the ack handler. -/
def ackedCmd (command : Command) (st : AckStatus) (errorMsg : Option String)
    (now : Int) : Command :=
  { command with
    status := st.toCommandStatus
    ackAt := some now
    errorMsg := jsStrOrNull errorMsg }

/-- POST `/:id/commands/:commandId/ack` (router.ts:129-168).  No
precondition on the command's current status: it is overwritten with the
reported status, `ackAt = now` and `errorMsg || null`. -/
def ackCommand (tokDid pathDid commandId : String) (st : AckStatus)
    (errorMsg : Option String) (store : List Command) (now : Int) :
    Except AppErr (Command × List Command) :=
  if tokDid ≠ pathDid then .error (forbiddenError "Device ID mismatch")
  else match store.find? (fun c => decide (c.id = commandId ∧ c.deviceId = pathDid)) with
  | none => .error (notFoundError "Command" commandId)
  | some command =>
    .ok (ackedCmd command st errorMsg now,
      store.map fun c => if c.id = command.id then ackedCmd command st errorMsg now else c)

/-- Operations that touch the Command store.  `create` is the
POST `/:id/commands` handler's insert (`status = QUEUED`,
`requestedAt = now`); its tenancy/entitlement guards run before the insert
and do not change the row's shape. -/
inductive CmdOp where
  | create (id deviceId ctype userId : String) (now : Int)
  | poll (tokDid pathDid : String) (now : Int)
  | ack (tokDid pathDid commandId : String) (st : AckStatus) (errorMsg : Option String) (now : Int)

def applyOp (store : List Command) : CmdOp → List Command
  | .create id did ct uid now =>
    store ++ [⟨id, did, ct, CommandStatus.QUEUED, some uid, now, none, none, none⟩]
  | .poll tok path now =>
    match pendingPoll tok path store now with
    | .ok (_, st') => st'
    | .error _ => store
  | .ack tok path cid st e now =>
    match ackCommand tok path cid st e store now with
    | .ok (_, st') => st'
    | .error _ => store

def applyOps (store : List Command) (ops : List CmdOp) : List Command :=
  ops.foldl applyOp store

/-- Well-formed traces: every `create` uses an id not present in the store
(the database generates fresh primary keys). -/
def WfOps (store : List Command) : List CmdOp → Prop
  | [] => True
  | op :: rest =>
    (∀ id did ct uid now, op = .create id did ct uid now → id ∉ store.map (·.id)) ∧
    WfOps (applyOp store op) rest

/-- No row with the given id has status QUEUED. -/
def NotQueuedAt (i : String) (store : List Command) : Prop :=
  ∀ c ∈ store, c.id = i → c.status ≠ CommandStatus.QUEUED

theorem deliverCmds_ids (store : List Command) (ids : List String) (now : Int) :
    (deliverCmds store ids now).map (·.id) = store.map (·.id) := by
  unfold deliverCmds
  rw [List.map_map]
  apply List.map_congr_left
  intro c _
  dsimp only [Function.comp]
  split <;> rfl

theorem mem_deliverCmds {store : List Command} {ids : List String} {now : Int} {c : Command}
    (hc : c ∈ deliverCmds store ids now) :
    ∃ c0 ∈ store, c = (if ids.contains c0.id then
      { c0 with status := CommandStatus.DELIVERED, deliveredAt := some now } else c0) := by
  rcases List.mem_map.mp hc with ⟨c0, hc0, hfc⟩
  exact ⟨c0, hc0, hfc.symm⟩

theorem ackStore_ids (store : List Command) (command : Command) (st : AckStatus)
    (e : Option String) (now : Int) (hcmd : command ∈ store) :
    (store.map fun c => if c.id = command.id then ackedCmd command st e now else c).map (·.id) =
      store.map (·.id) := by
  rw [List.map_map]
  apply List.map_congr_left
  intro c _
  dsimp only [Function.comp]
  by_cases hid : c.id = command.id
  · simp [hid, ackedCmd]
  · simp [hid]

theorem applyOp_id_preserved (store : List Command) (op : CmdOp) (i : String)
    (h : i ∈ store.map (·.id)) : i ∈ (applyOp store op).map (·.id) := by
  cases op with
  | create id did ct uid now =>
    simp only [applyOp, List.map_append]
    exact List.mem_append_left _ h
  | poll tok path now =>
    simp only [applyOp]
    split
    case h_1 resp st' heq =>
      by_cases htp : tok ≠ path
      · simp [pendingPoll, htp] at heq
      · simp only [pendingPoll, if_neg htp] at heq
        injection heq with heq2
        injection heq2 with hresp hst
        rw [← hst]
        split
        · rw [deliverCmds_ids]
          exact h
        · exact h
    case h_2 => exact h
  | ack tok path cid st e now =>
    simp only [applyOp]
    split
    case h_1 upd st' heq =>
      by_cases htp : tok ≠ path
      · simp [ackCommand, htp] at heq
      · simp only [ackCommand, if_neg htp] at heq
        rcases hfind : store.find? (fun c => decide (c.id = cid ∧ c.deviceId = path)) with
          _ | command
        · rw [hfind] at heq
          cases heq
        · rw [hfind] at heq
          injection heq with heq2
          injection heq2 with hupd hst
          rw [← hst, ackStore_ids store command st e now (List.mem_of_find?_eq_some hfind)]
          exact h
    case h_2 => exact h

theorem applyOp_preserves_notQueued (store : List Command) (op : CmdOp) (i : String)
    (hmem : i ∈ store.map (·.id))
    (hfresh : ∀ id did ct uid now, op = .create id did ct uid now → id ∉ store.map (·.id))
    (h : NotQueuedAt i store) : NotQueuedAt i (applyOp store op) := by
  cases op with
  | create id did ct uid now =>
    intro c hc hci
    simp only [applyOp] at hc
    rcases List.mem_append.mp hc with hold | hnew
    · exact h c hold hci
    · exfalso
      have hcid : c.id = id := by
        rcases List.mem_singleton.mp hnew with rfl
        rfl
      exact hfresh id did ct uid now rfl (by rw [← hcid, hci]; exact hmem)
  | poll tok path now =>
    intro c hc hci
    simp only [applyOp] at hc
    split at hc
    case h_1 resp st' heq =>
      by_cases htp : tok ≠ path
      · simp [pendingPoll, htp] at heq
      · simp only [pendingPoll, if_neg htp] at heq
        injection heq with heq2
        injection heq2 with hresp hst
        rw [← hst] at hc
        split at hc
        · rcases mem_deliverCmds hc with ⟨c0, hc0, hfc⟩
          by_cases hin : ((pendingQueue store path).map (·.id)).contains c0.id = true
          · rw [hfc, if_pos hin]
            intro hq
            simp at hq
          · rw [hfc] at hci
            rw [hfc, if_neg hin]
            rw [if_neg hin] at hci
            exact h c0 hc0 hci
        · exact h c hc hci
    case h_2 => exact h c hc hci
  | ack tok path cid st e now =>
    intro c hc hci
    simp only [applyOp] at hc
    split at hc
    case h_1 upd st' heq =>
      by_cases htp : tok ≠ path
      · simp [ackCommand, htp] at heq
      · simp only [ackCommand, if_neg htp] at heq
        rcases hfind : store.find? (fun c => decide (c.id = cid ∧ c.deviceId = path)) with
          _ | command
        · rw [hfind] at heq
          cases heq
        · rw [hfind] at heq
          injection heq with heq2
          injection heq2 with hupd hst
          rw [← hst] at hc
          rcases List.mem_map.mp hc with ⟨c0, hc0, hfc⟩
          by_cases hid : c0.id = command.id
          · rw [← hfc]
            simp only [hid, if_pos]
            cases st <;> simp [ackedCmd, AckStatus.toCommandStatus]
          · rw [← hfc]
            simp only [hid, if_neg, if_false]
            exact h c0 hc0 (by rw [← hfc] at hci; simpa [hid] using hci)
    case h_2 => exact h c hc hci

theorem applyOps_preserves_notQueued (ops : List CmdOp) (store : List Command) (i : String)
    (hmem : i ∈ store.map (·.id)) (hwf : WfOps store ops)
    (h : NotQueuedAt i store) : NotQueuedAt i (applyOps store ops) := by
  induction ops generalizing store with
  | nil => exact h
  | cons op rest ih =>
    exact ih (applyOp store op) (applyOp_id_preserved store op i hmem) hwf.2
      (applyOp_preserves_notQueued store op i hmem hwf.1 h)

theorem contains_of_mem_str {l : List String} {s : String} (h : s ∈ l) :
    l.contains s = true := by
  simpa using h

/-- C2: with the path id equal to the token's device id, a pending poll
returns exactly the QUEUED commands of the device in ascending `requestedAt`
order; every returned command is DELIVERED with `deliveredAt = now` in the
post-state; an immediately repeated poll returns the empty list; and after
any well-formed sequence of further create/poll/ack operations, no returned
command is ever QUEUED again. -/
theorem pendingPoll_spec (tokDid pathDid : String) (store : List Command) (now : Int)
    (htok : tokDid = pathDid) :
    ∀ resp store', pendingPoll tokDid pathDid store now = .ok (resp, store') →
      resp.Perm (store.filter fun c =>
        decide (c.deviceId = pathDid ∧ c.status = CommandStatus.QUEUED)) ∧
      resp.Pairwise cmdLe ∧
      (∀ c ∈ resp, ∀ c' ∈ store', c'.id = c.id →
        c'.status = CommandStatus.DELIVERED ∧ c'.deliveredAt = some now) ∧
      (∀ now2, pendingPoll tokDid pathDid store' now2 = .ok ([], store')) ∧
      (∀ ops, WfOps store' ops → ∀ c ∈ resp, ∀ c' ∈ applyOps store' ops,
        c'.id = c.id → c'.status ≠ CommandStatus.QUEUED) := by
  subst htok
  intro resp store' heq
  have hne : ¬ (tokDid ≠ tokDid) := by simp
  simp only [pendingPoll, if_neg hne] at heq
  injection heq with heq2
  injection heq2 with hresp hst
  subst hresp
  subst hst
  set Q := pendingQueue store tokDid with hQ
  have hperm : Q.Perm (store.filter fun c =>
      decide (c.deviceId = tokDid ∧ c.status = CommandStatus.QUEUED)) := by
    rw [hQ, pendingQueue]
    exact List.perm_insertionSort cmdLe _
  have hdelivered : ∀ c ∈ Q,
      ∀ c' ∈ (if 0 < Q.length then deliverCmds store (Q.map (·.id)) now else store),
      c'.id = c.id → c'.status = CommandStatus.DELIVERED ∧ c'.deliveredAt = some now := by
    intro c hc c' hc' hid
    have hlen : 0 < Q.length := List.length_pos.mpr (List.ne_nil_of_mem hc)
    rw [if_pos hlen] at hc'
    rcases mem_deliverCmds hc' with ⟨c0, hc0, hfc⟩
    have hc0id : c'.id = c0.id := by
      rw [hfc]; split <;> rfl
    have hmemid : c0.id ∈ Q.map (·.id) := by
      rw [← hc0id, hid]
      exact List.mem_map_of_mem _ hc
    have hcontains : (Q.map (·.id)).contains c0.id = true := contains_of_mem_str hmemid
    rw [hfc, if_pos hcontains]
    exact ⟨rfl, rfl⟩
  have hfilter' : (if 0 < Q.length then deliverCmds store (Q.map (·.id)) now
      else store).filter (fun c =>
        decide (c.deviceId = tokDid ∧ c.status = CommandStatus.QUEUED)) = [] := by
    rw [List.filter_eq_nil]
    intro c hc
    by_cases hlen : 0 < Q.length
    · rw [if_pos hlen] at hc
      rcases mem_deliverCmds hc with ⟨c0, hc0, hfc⟩
      by_cases hin : ((Q.map (·.id)).contains c0.id) = true
      · rw [hfc, if_pos hin]
        simp
      · rw [hfc, if_neg hin]
        intro hp
        apply hin
        apply contains_of_mem_str
        apply List.mem_map_of_mem
        exact hperm.symm.subset (List.mem_filter.mpr ⟨hc0, by simpa using hp⟩)
    · rw [if_neg hlen] at hc
      intro hp
      have hq0 : Q = [] := List.length_eq_zero.mp (Nat.eq_zero_of_not_pos hlen)
      have hfil : store.filter (fun c =>
          decide (c.deviceId = tokDid ∧ c.status = CommandStatus.QUEUED)) = [] := by
        have h2 := hperm
        rw [hq0] at h2
        exact (h2.symm).eq_nil
      have : c ∈ store.filter (fun c =>
          decide (c.deviceId = tokDid ∧ c.status = CommandStatus.QUEUED)) :=
        List.mem_filter.mpr ⟨hc, by simpa using hp⟩
      rw [hfil] at this
      cases this
  refine ⟨hperm, ?_, hdelivered, ?_, ?_⟩
  · rw [hQ, pendingQueue]
    exact List.sorted_insertionSort cmdLe _
  · intro now2
    have hq' : pendingQueue (if 0 < Q.length then deliverCmds store (Q.map (·.id)) now
        else store) tokDid = [] := by
      rw [pendingQueue, hfilter']
      rfl
    simp only [pendingPoll, if_neg hne, hq']
    simp
  · intro ops hwf c hcQ c' hc' hid
    have hcstore : c ∈ store :=
      (List.mem_filter.mp (hperm.subset hcQ)).1
    have hmemid : c.id ∈ (if 0 < Q.length then deliverCmds store (Q.map (·.id)) now
        else store).map (·.id) := by
      split
      · rw [deliverCmds_ids]
        exact List.mem_map_of_mem _ hcstore
      · exact List.mem_map_of_mem _ hcstore
    have hnq : NotQueuedAt c.id (if 0 < Q.length then deliverCmds store (Q.map (·.id)) now
        else store) := by
      intro c'' hc'' hid''
      rw [(hdelivered c hcQ c'' hc'' hid'').1]
      decide
    exact applyOps_preserves_notQueued ops _ c.id hmemid hwf hnq c' hc' hid

/-- A QUEUED command used by the command-queue witnesses. -/
def demoCmd : Command :=
  ⟨"c1", "d1", "REMOTE_BOOST_SET", CommandStatus.QUEUED, some "u1", 1, none, none, none⟩

/-- `demoCmd` after being delivered by a poll at time 5. -/
def demoDelivered : Command :=
  ⟨"c1", "d1", "REMOTE_BOOST_SET", CommandStatus.DELIVERED, some "u1", 1, some 5, none, none⟩

/-- Witness for C2 at a one-command store: the poll returns the command,
delivers it, and an immediate repeat poll returns nothing. -/
theorem pendingPoll_spec_witness :
    pendingPoll "d1" "d1" [demoCmd] 5 = .ok ([demoCmd], [demoDelivered]) ∧
    (∀ c ∈ [demoCmd], ∀ c' ∈ [demoDelivered], c'.id = c.id →
      c'.status = CommandStatus.DELIVERED ∧ c'.deliveredAt = some 5) ∧
    pendingPoll "d1" "d1" [demoDelivered] 6 = .ok ([], [demoDelivered]) := by
  have heq : pendingPoll "d1" "d1" [demoCmd] 5 = .ok ([demoCmd], [demoDelivered]) := by
    rfl
  have h := pendingPoll_spec "d1" "d1" [demoCmd] 5 rfl [demoCmd] [demoDelivered] heq
  exact ⟨heq, h.2.2.1, h.2.2.2.1 6⟩

/-- C10: the ack operation has no precondition on the command's current
status.  For any command of the device found by id — QUEUED, DELIVERED,
ACKED or FAILED alike — ack overwrites the status with the reported one and
sets `ackAt = now`; the DELIVERED→ACKED edge of the state machine is not
enforced. -/
theorem ackCommand_spec (tokDid pathDid cid : String) (st : AckStatus)
    (emsg : Option String) (store : List Command) (now : Int)
    (htok : tokDid = pathDid) (cmd : Command)
    (hfind : store.find? (fun c => decide (c.id = cid ∧ c.deviceId = pathDid)) = some cmd) :
    ackCommand tokDid pathDid cid st emsg store now =
      .ok (ackedCmd cmd st emsg now,
        store.map fun c => if c.id = cmd.id then ackedCmd cmd st emsg now else c) ∧
    (ackedCmd cmd st emsg now).status = st.toCommandStatus ∧
    (ackedCmd cmd st emsg now).ackAt = some now := by
  subst htok
  refine ⟨?_, rfl, rfl⟩
  have hne : ¬ (tokDid ≠ tokDid) := by simp
  simp only [ackCommand, if_neg hne, hfind]

/-- Witness for C10: a still-QUEUED, never-delivered command is acked
straight to ACKED. -/
theorem ackCommand_spec_witness :
    ackCommand "d1" "d1" "c1" AckStatus.ACKED none [demoCmd] 7 =
      .ok (ackedCmd demoCmd AckStatus.ACKED none 7,
        [ackedCmd demoCmd AckStatus.ACKED none 7]) ∧
    demoCmd.status = CommandStatus.QUEUED ∧ demoCmd.deliveredAt = none ∧
    (ackedCmd demoCmd AckStatus.ACKED none 7).status = CommandStatus.ACKED ∧
    (ackedCmd demoCmd AckStatus.ACKED none 7).ackAt = some 7 := by
  have h := ackCommand_spec "d1" "d1" "c1" AckStatus.ACKED none [demoCmd] 7 rfl demoCmd rfl
  refine ⟨h.1.trans ?_, rfl, rfl, h.2.1, h.2.2⟩
  rfl

/-! ## Notification queue consumer (C7)

`processNotificationQueue` (src/modules/notifications/router.ts:121-159).
The `findMany` has **no** `orderBy`, so rows come back in store order; the
per-event `try`/`catch` maps adapter success to SENT and failure to FAILED.
The adapter (the `switch` over the joined channel's type plus anything else
inside the `try`) is abstracted as a `send` function; the reference stub
always succeeds.  The processed counter and the row updates do not
interact, so they are modelled as two folds over the same selection. -/

inductive NStatus where
  | QUEUED | SENT | FAILED
deriving DecidableEq, Repr

inductive ChannelType where
  | EMAIL | SMS | WEBHOOK
deriving DecidableEq, Repr

structure NotificationEvent where
  id : String
  tenantId : String
  channelId : String
  channelType : ChannelType
  alertEventId : Option String
  status : NStatus
  createdAt : Int
  sentAt : Option Int
  errorMsg : Option String
deriving DecidableEq, Repr

/-- Per-event body of the consumer loop: on adapter success the row becomes
SENT with `sentAt = now`; on failure it becomes FAILED with the error
message. -/
def applySend (send : NotificationEvent → Except String Unit) (now : Int)
    (st : List NotificationEvent) (e : NotificationEvent) : List NotificationEvent :=
  match send e with
  | .ok _ => st.map fun e' =>
      if e'.id = e.id then { e' with status := NStatus.SENT, sentAt := some now } else e'
  | .error m => st.map fun e' =>
      if e'.id = e.id then { e' with status := NStatus.FAILED, errorMsg := some m } else e'

/-- The consumer's selection: QUEUED rows in store order, capped at 100. -/
def selectQueued (store : List NotificationEvent) : List NotificationEvent :=
  (store.filter fun e => decide (e.status = NStatus.QUEUED)).take 100

def processNotificationQueue (send : NotificationEvent → Except String Unit)
    (store : List NotificationEvent) (now : Int) : Nat × List NotificationEvent :=
  let queued := selectQueued store
  (queued.foldl (fun n e => match send e with | .ok _ => n + 1 | .error _ => n) 0,
   queued.foldl (applySend send now) store)

def rowsWith (i : String) (st : List NotificationEvent) : List NotificationEvent :=
  st.filter fun e => decide (e.id = i)

theorem map_id_of_fix {α : Type} (g : α → α) (l : List α) (h : ∀ x ∈ l, g x = x) :
    l.map g = l := by
  induction l with
  | nil => rfl
  | cons a t ih =>
    rw [List.map_cons, h a (List.mem_cons_self _ _),
      ih (fun x hx => h x (List.mem_cons_of_mem _ hx))]

theorem rowsWith_applySend_ne (send : NotificationEvent → Except String Unit)
    (now : Int) (st : List NotificationEvent) (e : NotificationEvent) (i : String)
    (hne : e.id ≠ i) : rowsWith i (applySend send now st e) = rowsWith i st := by
  unfold applySend
  have key : ∀ (g : NotificationEvent → NotificationEvent),
      (∀ x, (g x).id = x.id) → (∀ x, x.id ≠ e.id → g x = x) →
      rowsWith i (st.map g) = rowsWith i st := by
    intro g hgid hgfix
    unfold rowsWith
    rw [List.filter_map]
    have hp : ((fun e' => decide (e'.id = i)) ∘ g) = fun e' => decide (e'.id = i) := by
      funext x
      simp [Function.comp, hgid x]
    rw [hp]
    apply map_id_of_fix
    intro x hx
    have hxi : x.id = i := by simpa using List.of_mem_filter hx
    exact hgfix x (by rw [hxi]; exact fun hc => hne hc.symm)
  split
  · apply key
    · intro x; dsimp; split <;> rfl
    · intro x hx; simp [hx]
  · apply key
    · intro x; dsimp; split <;> rfl
    · intro x hx; simp [hx]

theorem rowsWith_fold_notin (send : NotificationEvent → Except String Unit) (now : Int)
    (l : List NotificationEvent) (st : List NotificationEvent) (i : String)
    (h : i ∉ l.map (·.id)) :
    rowsWith i (l.foldl (applySend send now) st) = rowsWith i st := by
  induction l generalizing st with
  | nil => rfl
  | cons e t ih =>
    rw [List.foldl_cons]
    rw [ih _ (fun hc => h (List.mem_cons_of_mem _ hc))]
    exact rowsWith_applySend_ne send now st e i
      (fun hc => h (by rw [← hc]; exact List.mem_cons_self _ _))

theorem rowsWith_applySend_self (send : NotificationEvent → Except String Unit)
    (now : Int) (st : List NotificationEvent) (e : NotificationEvent) :
    ∀ e' ∈ rowsWith e.id (applySend send now st e),
      (∀ u, send e = .ok u → e'.status = NStatus.SENT ∧ e'.sentAt = some now) ∧
      (∀ m, send e = .error m → e'.status = NStatus.FAILED ∧ e'.errorMsg = some m) := by
  intro e' he'
  unfold applySend at he'
  rcases hsend : send e with m | u
  · rw [hsend] at he'
    dsimp only at he'
    have hid : e'.id = e.id := by simpa [rowsWith] using List.of_mem_filter he'
    rcases List.mem_map.mp (List.mem_of_mem_filter he') with ⟨x, hxst, hfx⟩
    subst hfx
    by_cases hxe : x.id = e.id
    · constructor
      · intro u' hu'
        cases hu'
      · intro m' hm'
        injection hm' with hmm
        subst hmm
        simp [hxe]
    · exfalso
      apply hxe
      simpa [hxe] using hid
  · rw [hsend] at he'
    dsimp only at he'
    have hid : e'.id = e.id := by simpa [rowsWith] using List.of_mem_filter he'
    rcases List.mem_map.mp (List.mem_of_mem_filter he') with ⟨x, hxst, hfx⟩
    subst hfx
    by_cases hxe : x.id = e.id
    · constructor
      · intro u' _
        simp [hxe]
      · intro m' hm'
        cases hm'
    · exfalso
      apply hxe
      simpa [hxe] using hid

/-- C7 (amended): each consumer run selects at most 100 QUEUED events in
store order (the `findMany` imposes no ordering); each selected event
becomes SENT with `sentAt = now` when the adapter succeeds and FAILED with
the error message when it fails (failures never escape the run, which is a
total function); rows outside the selection are untouched. -/
theorem processNotificationQueue_spec (send : NotificationEvent → Except String Unit)
    (store : List NotificationEvent) (now : Int)
    (hnd : (store.map (·.id)).Nodup) :
    (selectQueued store).length ≤ 100 ∧
    (∀ e ∈ selectQueued store, e.status = NStatus.QUEUED) ∧
    (∀ e ∈ selectQueued store,
      ∀ e' ∈ (processNotificationQueue send store now).2, e'.id = e.id →
        (∀ u, send e = .ok u → e'.status = NStatus.SENT ∧ e'.sentAt = some now) ∧
        (∀ m, send e = .error m → e'.status = NStatus.FAILED ∧ e'.errorMsg = some m)) ∧
    (∀ e' ∈ store, e'.id ∉ (selectQueued store).map (·.id) →
      e' ∈ (processNotificationQueue send store now).2) := by
  have hsub : (selectQueued store).Sublist store :=
    (List.take_sublist _ _).trans (List.filter_sublist _)
  have hndsel : ((selectQueued store).map (·.id)).Nodup :=
    hnd.sublist (hsub.map _)
  refine ⟨List.length_take_le _ _, ?_, ?_, ?_⟩
  · intro e he
    have : e ∈ store.filter fun e => decide (e.status = NStatus.QUEUED) :=
      List.mem_of_mem_take he
    simpa using List.of_mem_filter this
  · intro e he e' he' hid
    rcases List.append_of_mem he with ⟨pre, post, hdecomp⟩
    have hndids : ((pre.map (·.id)) ++ e.id :: post.map (·.id)).Nodup := by
      have := hndsel
      rw [hdecomp] at this
      simpa using this
    have hpostnot : e.id ∉ post.map (·.id) := by
      have h2 := (List.Nodup.of_append_right hndids)
      exact (List.nodup_cons.mp h2).1
    have hfold : (processNotificationQueue send store now).2 =
        post.foldl (applySend send now)
          (applySend send now (pre.foldl (applySend send now) store) e) := by
      show (selectQueued store).foldl (applySend send now) store = _
      rw [hdecomp, List.foldl_append, List.foldl_cons]
    have hrow : e' ∈ rowsWith e.id ((processNotificationQueue send store now).2) :=
      List.mem_filter.mpr ⟨he', by simpa using hid⟩
    rw [hfold, rowsWith_fold_notin send now post _ e.id hpostnot] at hrow
    exact rowsWith_applySend_self send now _ e e' hrow
  · intro e' he' hnotin
    have hfold : (processNotificationQueue send store now).2 =
        (selectQueued store).foldl (applySend send now) store := rfl
    have hrow : e' ∈ rowsWith e'.id store :=
      List.mem_filter.mpr ⟨he', by simp⟩
    have hpres := rowsWith_fold_notin send now (selectQueued store) store e'.id hnotin
    rw [hfold]
    have hrow2 : e' ∈ rowsWith e'.id ((selectQueued store).foldl (applySend send now) store) := by
      rw [hpres]
      exact hrow
    exact List.mem_of_mem_filter hrow2

def nidChar (d : Nat) : Char :=
  (['a','b','c','d','e','f','g','h','i','j','k'].getD d 'z')

/-- Distinct two-letter ids for the 101-event counterexample store. -/
def nid (i : Nat) : String := ⟨[nidChar (i / 10), nidChar (i % 10)]⟩

/-- 101 QUEUED notification events whose single **oldest** row
(`createdAt = 1`, id `nid 100`) sits last in store order. -/
def bigDemoStore : List NotificationEvent :=
  (List.range 101).map fun i =>
    ⟨nid i, "T1", "ch1", ChannelType.EMAIL, none, NStatus.QUEUED, 101 - (i : Int), none, none⟩

set_option maxRecDepth 100000 in
/-- C7 — counterexample to "taken oldest-first".  With 101 QUEUED events the
run processes the first 100 in store order and leaves the single oldest
event (the one with minimal `createdAt`) still QUEUED, although an
oldest-first selection of 100 would have had to include it. -/
theorem processNotificationQueue_not_oldest_first :
    ((processNotificationQueue (fun _ => .ok ()) bigDemoStore 999).2.filter
        (fun e => decide (e.status = NStatus.QUEUED))).map (·.createdAt) = [1] ∧
    (∀ e ∈ bigDemoStore, 1 ≤ e.createdAt) ∧
    (∀ e ∈ bigDemoStore, e.createdAt = 1 → e.id = nid 100) ∧
    (bigDemoStore.filter (fun e => decide (e.status = NStatus.QUEUED))).length = 101 := by
  decide

def wNotifSend : NotificationEvent → Except String Unit :=
  fun e => if e.id = "n1" then .error "boom" else .ok ()

def wNotifStore : List NotificationEvent :=
  [⟨"n1", "T1", "ch1", ChannelType.EMAIL, none, NStatus.QUEUED, 1, none, none⟩,
   ⟨"n2", "T1", "ch1", ChannelType.SMS, none, NStatus.SENT, 0, some 0, none⟩]

/-- Witness for C7 (amended) at a concrete two-row store with a failing
adapter. -/
theorem processNotificationQueue_spec_witness :
    (selectQueued wNotifStore).length ≤ 100 ∧
    (∀ e ∈ selectQueued wNotifStore, e.status = NStatus.QUEUED) ∧
    (∀ e ∈ selectQueued wNotifStore,
      ∀ e' ∈ (processNotificationQueue wNotifSend wNotifStore 7).2, e'.id = e.id →
        (∀ u, wNotifSend e = .ok u → e'.status = NStatus.SENT ∧ e'.sentAt = some 7) ∧
        (∀ m, wNotifSend e = .error m → e'.status = NStatus.FAILED ∧ e'.errorMsg = some m)) ∧
    (∀ e' ∈ wNotifStore, e'.id ∉ (selectQueued wNotifStore).map (·.id) →
      e' ∈ (processNotificationQueue wNotifSend wNotifStore 7).2) :=
  processNotificationQueue_spec wNotifSend wNotifStore 7 (by decide)

/-! ## Devices (prisma model `Device`, fields used by the claims) -/

inductive DeviceStatus where
  | PROVISIONED | INSTALLED | ACTIVE | SUSPENDED | RETIRED
deriving DecidableEq, Repr

structure Device where
  id : String
  tenantId : String
  status : DeviceStatus
  lastSeenAt : Option Int
  firmwareVersion : Option String
  siteId : Option String
deriving DecidableEq, Repr

/-! ## OTA device report (C9)

POST `/devices/:id/ota/report` (src/modules/ota/router.ts:213-254).  The
job is fetched with `findUnique({ where: { id: jobId } })` — no tenant or
target filter.  `body.status` is an unvalidated string (the route has no
schema); `body.errorMsg` is destructured but never written.  Prisma ignores
an `undefined` progress, so an absent progress leaves the stored one. -/

inductive OtaStatus where
  | SCHEDULED | IN_PROGRESS | SUCCESS | FAILED | CANCELED
deriving DecidableEq, Repr

inductive OtaTarget where
  | DEVICE | GROUP
deriving DecidableEq, Repr

structure OtaJob where
  id : String
  tenantId : String
  targetType : OtaTarget
  deviceId : Option String
  firmwarePackageId : String
  status : OtaStatus
  scheduledAt : Int
  startedAt : Option Int
  finishedAt : Option Int
  progress : Option Rat
deriving DecidableEq, Repr

structure FirmwarePackage where
  id : String
  version : String
deriving DecidableEq, Repr

structure OtaReportBody where
  jobId : String
  status : String
  progress : Option Rat
  errorMsg : Option String
deriving DecidableEq, Repr

/-- The `updateData` written onto the job by the report handler. -/
def otaApply (job : OtaJob) (body : OtaReportBody) (now : Int) : OtaJob :=
  let j1 := { job with progress := body.progress.or job.progress }
  let j2 :=
    if body.status = "SUCCESS" ∨ body.status = "FAILED" then
      { j1 with
        status := if body.status = "SUCCESS" then OtaStatus.SUCCESS else OtaStatus.FAILED
        finishedAt := some now }
    else j1
  if body.status = "IN_PROGRESS" ∧ job.status = OtaStatus.SCHEDULED then
    { j2 with status := OtaStatus.IN_PROGRESS, startedAt := some now }
  else j2

/-- The report handler: returns the updated job, the job store and the
device store after the call. -/
def otaReport (tokDid pathDid : String) (body : OtaReportBody)
    (jobs : List OtaJob) (firmwares : List FirmwarePackage) (devices : List Device)
    (now : Int) : Except AppErr (OtaJob × List OtaJob × List Device) :=
  if tokDid ≠ pathDid then .error (forbiddenError "Device ID mismatch")
  else match jobs.find? (fun j => decide (j.id = body.jobId)) with
  | none => .error (notFoundError "OtaJob" body.jobId)
  | some job =>
    let updated := otaApply job body now
    let jobs' := jobs.map fun j => if j.id = job.id then updated else j
    let devices' :=
      if body.status = "SUCCESS" then
        match firmwares.find? (fun f => decide (f.id = job.firmwarePackageId)) with
        | some fw => devices.map fun d =>
            if d.id = pathDid then { d with firmwareVersion := some fw.version } else d
        | none => devices
      else devices
    .ok (updated, jobs', devices')

/-- C9: the report handler updates whatever job `body.jobId` names — the
hypotheses relate the job to the reporting device in no way (no tenant
check, no target check) — and a SUCCESS report writes that job's firmware
version onto the reporting device. -/
theorem otaReport_spec (tokDid pathDid : String) (body : OtaReportBody)
    (jobs : List OtaJob) (firmwares : List FirmwarePackage) (devices : List Device)
    (now : Int) (htok : tokDid = pathDid)
    (job : OtaJob) (hfind : jobs.find? (fun j => decide (j.id = body.jobId)) = some job)
    (fw : FirmwarePackage)
    (hfw : firmwares.find? (fun f => decide (f.id = job.firmwarePackageId)) = some fw) :
    otaReport tokDid pathDid body jobs firmwares devices now =
      .ok (otaApply job body now,
        jobs.map (fun j => if j.id = job.id then otaApply job body now else j),
        if body.status = "SUCCESS" then
          devices.map (fun d =>
            if d.id = pathDid then { d with firmwareVersion := some fw.version } else d)
        else devices) ∧
    (body.status = "SUCCESS" →
      (otaApply job body now).status = OtaStatus.SUCCESS ∧
      (otaApply job body now).finishedAt = some now ∧
      ∀ d' ∈ devices.map (fun d =>
          if d.id = pathDid then { d with firmwareVersion := some fw.version } else d),
        d'.id = pathDid → d'.firmwareVersion = some fw.version) ∧
    (body.status = "FAILED" →
      (otaApply job body now).status = OtaStatus.FAILED ∧
      (otaApply job body now).finishedAt = some now) ∧
    (body.status = "IN_PROGRESS" → job.status = OtaStatus.SCHEDULED →
      (otaApply job body now).status = OtaStatus.IN_PROGRESS ∧
      (otaApply job body now).startedAt = some now) := by
  subst htok
  have hne : ¬ (tokDid ≠ tokDid) := by simp
  refine ⟨?_, ?_, ?_, ?_⟩
  · simp only [otaReport, if_neg hne, hfind, hfw]
  · intro hS
    refine ⟨?_, ?_, ?_⟩
    · simp [otaApply, hS]
    · simp [otaApply, hS]
    · intro d' hd' hid
      rcases List.mem_map.mp hd' with ⟨d0, hd0, hfd⟩
      by_cases hdp : d0.id = tokDid
      · rw [← hfd]
        simp [hdp]
      · exfalso
        rw [← hfd] at hid
        rw [if_neg hdp] at hid
        exact hdp hid
  · intro hF
    have hns : ¬ (body.status = "SUCCESS") := by rw [hF]; decide
    have hni : ¬ (body.status = "IN_PROGRESS" ∧ job.status = OtaStatus.SCHEDULED) := by
      rw [hF]; simp
    constructor
    · simp [otaApply, hF, hns, hni]
    · simp [otaApply, hF, hns, hni]
  · intro hI hsch
    have hns : ¬ (body.status = "SUCCESS" ∨ body.status = "FAILED") := by
      rw [hI]; decide
    constructor
    · simp [otaApply, hI, hns, hsch]
    · simp [otaApply, hI, hns, hsch]

/-- Witness for C9: a device of tenant "B" drives a job of tenant "A" that
targets a different device, and adopts its firmware version. -/
theorem otaReport_spec_witness :
    otaReport "d1" "d1" ⟨"j1", "SUCCESS", none, none⟩
        [⟨"j1", "A", OtaTarget.DEVICE, some "dOther", "fw1", OtaStatus.SCHEDULED,
          0, none, none, none⟩]
        [⟨"fw1", "2.0.0"⟩]
        [⟨"d1", "B", DeviceStatus.ACTIVE, none, some "1.0.0", none⟩] 9 =
      .ok (otaApply
          ⟨"j1", "A", OtaTarget.DEVICE, some "dOther", "fw1", OtaStatus.SCHEDULED,
            0, none, none, none⟩ ⟨"j1", "SUCCESS", none, none⟩ 9,
        [otaApply
          ⟨"j1", "A", OtaTarget.DEVICE, some "dOther", "fw1", OtaStatus.SCHEDULED,
            0, none, none, none⟩ ⟨"j1", "SUCCESS", none, none⟩ 9],
        [⟨"d1", "B", DeviceStatus.ACTIVE, none, some "2.0.0", none⟩]) ∧
    (otaApply
        ⟨"j1", "A", OtaTarget.DEVICE, some "dOther", "fw1", OtaStatus.SCHEDULED,
          0, none, none, none⟩ ⟨"j1", "SUCCESS", none, none⟩ 9).status =
      OtaStatus.SUCCESS ∧
    ("A" : String) ≠ "B" ∧ (some "dOther" : Option String) ≠ some "d1" := by
  have h := otaReport_spec "d1" "d1" ⟨"j1", "SUCCESS", none, none⟩
    [⟨"j1", "A", OtaTarget.DEVICE, some "dOther", "fw1", OtaStatus.SCHEDULED,
      0, none, none, none⟩]
    [⟨"fw1", "2.0.0"⟩]
    [⟨"d1", "B", DeviceStatus.ACTIVE, none, some "1.0.0", none⟩] 9 rfl
    ⟨"j1", "A", OtaTarget.DEVICE, some "dOther", "fw1", OtaStatus.SCHEDULED,
      0, none, none, none⟩ rfl ⟨"fw1", "2.0.0"⟩ rfl
  refine ⟨h.1.trans ?_, (h.2.1 rfl).1, by decide, by decide⟩
  rfl

/-! ## Alert events (prisma model `AlertEvent`, fields used by the claims) -/

inductive AlertStatus where
  | OPEN | ACKNOWLEDGED | CLOSED
deriving DecidableEq, Repr

inductive Severity where
  | INFO | WARNING | CRITICAL
deriving DecidableEq, Repr

structure AlertEvent where
  id : String
  tenantId : String
  deviceId : String
  ruleId : String
  severity : Severity
  status : AlertStatus
  dedupeKey : String
deriving DecidableEq, Repr

/-! ## Dashboard summary (C1)

GET `/tenants/:tenantId/dashboard/summary` (analytics router).  Its
middleware chain is `authenticateUser, loadUserContext` only — there is
**no** `enforceTenancy` — and the handler reads `req.params.tenantId`
directly and filters every query by it.  The authenticated user's
memberships are loaded but never consulted, which the unused `user`
parameter mirrors. -/

structure DailyRollup where
  tenantId : String
  deviceId : String
  dayDate : Int
  energyKwhDay : Rat
deriving DecidableEq, Repr

structure DashDB where
  devices : List Device
  alertEvents : List AlertEvent
  sites : List Site
  rollups : List DailyRollup

/-- Prisma `groupBy` with `_count`: one entry per distinct value (first
appearance order) with its multiplicity. -/
def statusGroups {α : Type} [DecidableEq α] (l : List α) : List (α × Nat) :=
  (l.foldl (fun acc s => if s ∈ acc then acc else acc ++ [s]) []).map fun s => (s, l.count s)

/-- JavaScript `Math.round` (half toward +∞). -/
def mathRound (q : Rat) : Int := ⌊q + mkRat 1 2⌋

structure DashboardSummary where
  totalDevices : Nat
  devicesByStatus : List (DeviceStatus × Nat)
  onlineCount : Nat
  onlinePercentage : Int
  activeAlerts : Nat
  alertsBySeverity : List (Severity × Nat)
  todayEnergyKwh : Rat
  sitesCount : Nat
deriving Repr

def dashboardSummary (user : UserCtx) (pathTenantId : String) (db : DashDB)
    (now : Int) (todayStart : Int) : DashboardSummary :=
  let _ := user
  let tenantId := pathTenantId
  let tenantDevices := db.devices.filter fun d => decide (d.tenantId = tenantId)
  let devicesByStatus := statusGroups (tenantDevices.map (·.status))
  let totalDevices := devicesByStatus.foldl (fun n p => n + p.2) 0
  let thirtyMinAgo := now - 30 * 60 * 1000
  let onlineCount := (db.devices.filter fun d => decide (d.tenantId = tenantId) &&
    (match d.lastSeenAt with | some t => decide (thirtyMinAgo ≤ t) | none => false)).length
  let activeAlertRows := db.alertEvents.filter fun a => decide (a.tenantId = tenantId ∧
    (a.status = AlertStatus.OPEN ∨ a.status = AlertStatus.ACKNOWLEDGED))
  let alertsBySeverity := statusGroups (activeAlertRows.map (·.severity))
  let todayEnergy := (db.rollups.filter fun r =>
    decide (r.tenantId = tenantId ∧ todayStart ≤ r.dayDate)).foldl
      (fun s r => s + r.energyKwhDay) 0
  let sitesCount := (db.sites.filter fun s => decide (s.tenantId = tenantId)).length
  { totalDevices := totalDevices
    devicesByStatus := devicesByStatus
    onlineCount := onlineCount
    onlinePercentage :=
      if 0 < totalDevices then mathRound (mkRat onlineCount totalDevices * 100) else 0
    activeAlerts := activeAlertRows.length
    alertsBySeverity := alertsBySeverity
    todayEnergyKwh := todayEnergy
    sitesCount := sitesCount }

/-- C1 failing input: a user whose only membership is END_USER in tenant
"B". -/
def c1User : UserCtx := ⟨"uB", [⟨"B", Role.END_USER⟩]⟩

/-- Tenant "A" data the claim says must not be revealed to `c1User`. -/
def c1DB : DashDB :=
  { devices := [⟨"dA1", "A", DeviceStatus.ACTIVE, some 1000000, none, none⟩,
                ⟨"dA2", "A", DeviceStatus.INSTALLED, none, none, none⟩]
    alertEvents := [⟨"ae1", "A", "dA1", "r1", Severity.CRITICAL, AlertStatus.OPEN, "dA1:r1"⟩]
    sites := [⟨"sA", "A", none, none, false, none, none, none⟩]
    rollups := [⟨"A", "dA1", 500, mkRat 7 2⟩] }

/-- C1 — the code violates the claim: the dashboard summary for tenant "A",
requested by a user whose only membership is in tenant "B", is computed and
returns tenant A's device, alert, rollup and site numbers instead of
FORBIDDEN/NOT_FOUND.  The handler chain has no tenancy middleware, so
`dashboardSummary` is a total function of the path tenant id. -/
theorem dashboardSummary_cross_tenant_leak :
    (dashboardSummary c1User "A" c1DB 1000000 400).totalDevices = 2 ∧
    (dashboardSummary c1User "A" c1DB 1000000 400).onlineCount = 1 ∧
    (dashboardSummary c1User "A" c1DB 1000000 400).activeAlerts = 1 ∧
    (dashboardSummary c1User "A" c1DB 1000000 400).sitesCount = 1 ∧
    (dashboardSummary c1User "A" c1DB 1000000 400).todayEnergyKwh = mkRat 7 2 ∧
    (∀ m ∈ c1User.memberships, m.tenantId ≠ "A") := by
  refine ⟨by decide, by decide, by decide, by decide, ?_, by decide⟩
  have h0 : (dashboardSummary c1User "A" c1DB 1000000 400).todayEnergyKwh =
      0 + mkRat 7 2 := rfl
  rw [h0, zero_add]

/-! ## Alert evaluation engine (C8)

`evaluateAlerts` (src/modules/alerts/router.ts:176-282).  Rule params come
from an untyped JSON map; they are modelled as optional typed fields, with
JavaScript `||` (zero/empty falsy) and `??` (nullish) made explicit.  The
per-device `try`/`catch` swallows nothing in this total model, and the
notification enqueue after an insert does not affect alert creation and is
out of scope here.  The nested rule/device loops are flattened into a fold
over the rule-device pair list, which visits the same iterations in the
same order with the same accumulated inserts. -/

inductive AlertRuleType where
  | NO_TELEMETRY | OVER_TEMP | POSSIBLE_LEAK | SENSOR_OUT_OF_RANGE
deriving DecidableEq, Repr

structure RuleParams where
  thresholdMinutes : Option Int
  thresholdC : Option Rat
  lookbackMinutes : Option Int
  min : Option Rat
  max : Option Rat
  repeatCount : Option Nat
  metric : Option String
deriving DecidableEq, Repr

structure AlertRule where
  id : String
  tenantId : String
  name : String
  enabled : Bool
  rtype : AlertRuleType
  params : RuleParams
  severity : Severity
deriving DecidableEq, Repr

structure Telemetry where
  id : String
  deviceId : String
  ts : Int
  metrics : Metrics
deriving DecidableEq, Repr

structure AlertDB where
  rules : List AlertRule
  devices : List Device
  twins : List (String × DState)
  telemetry : List Telemetry
  events : List AlertEvent

/-- JavaScript `v || d` for numbers (0 is falsy). -/
def jsOrInt (o : Option Int) (d : Int) : Int :=
  match o with
  | some v => if v = 0 then d else v
  | none => d

def jsOrRat (o : Option Rat) (d : Rat) : Rat :=
  match o with
  | some v => if v = 0 then d else v
  | none => d

def jsOrNat (o : Option Nat) (d : Nat) : Nat :=
  match o with
  | some v => if v = 0 then d else v
  | none => d

def jsOrStr (o : Option String) (d : String) : String :=
  match o with
  | some v => if v = "" then d else v
  | none => d

/-- Deployment defaults (src/common/config.ts). -/
def configNoTelemetryThresholdMinutes : Int := 30

def configOverTempThresholdC : Rat := 85

def configSensorOutOfRangeRepeatCount : Nat := 3

def telemGe (a b : Telemetry) : Prop := b.ts ≤ a.ts

instance : DecidableRel telemGe := fun a b => by unfold telemGe; infer_instance

instance : IsTotal Telemetry telemGe := ⟨fun a b => Int.le_total _ _⟩

instance : IsTrans Telemetry telemGe := ⟨fun _ _ _ h1 h2 => Int.le_trans h2 h1⟩

/-- `orderBy ts desc`. -/
def sortTsDesc (l : List Telemetry) : List Telemetry := List.insertionSort telemGe l

/-- The OVER_TEMP predicate as the code computes it:
`state?.lastTankTempC && state.lastTankTempC > threshold` with
`threshold = params.thresholdC || config.overTempThresholdC`. -/
def overTempFire (db : AlertDB) (r : AlertRule) (d : Device) : Bool :=
  let threshold := jsOrRat r.params.thresholdC configOverTempThresholdC
  match (db.twins.find? fun p => decide (p.1 = d.id)).map (·.2) with
  | none => false
  | some st =>
    match aget st "lastTankTempC" with
    | none => false
    | some v => v.truthy && v.jsGt threshold

/-- The rule-typed predicate switch of `evaluateAlerts`. -/
def shouldFire (db : AlertDB) (now : Int) (r : AlertRule) (d : Device) : Bool :=
  match r.rtype with
  | .NO_TELEMETRY =>
    let thresholdMin := jsOrInt r.params.thresholdMinutes configNoTelemetryThresholdMinutes
    let threshold := now - thresholdMin * 60 * 1000
    match d.lastSeenAt with
    | none => true
    | some t => decide (t < threshold)
  | .OVER_TEMP => overTempFire db r d
  | .POSSIBLE_LEAK =>
    let lookbackMin := jsOrInt r.params.lookbackMinutes 60
    let since := now - lookbackMin * 60 * 1000
    let recent := (sortTsDesc (db.telemetry.filter fun t =>
      decide (t.deviceId = d.id ∧ since ≤ t.ts))).take 10
    decide (5 ≤ recent.length) && recent.all fun t =>
      match aget t.metrics "flowLpm" with
      | none => false
      | some v => v.jsGt (mkRat 1 10)
  | .SENSOR_OUT_OF_RANGE =>
    let metricName := jsOrStr r.params.metric "tankTempC"
    let mn := r.params.min.getD (-10)
    let mx := r.params.max.getD 120
    let repeatCount := jsOrNat r.params.repeatCount configSensorOutOfRangeRepeatCount
    let recent := (sortTsDesc (db.telemetry.filter fun t =>
      decide (t.deviceId = d.id))).take repeatCount
    let outOfRange := recent.filter fun t =>
      match aget t.metrics metricName with
      | none => false
      | some v => v.jsLt mn || v.jsGt mx
    decide (repeatCount ≤ outOfRange.length)

def mkKey (did rid : String) : String := did ++ ":" ++ rid

/-- The `AlertEvent` inserted for a firing (rule, device) pair; the
generated primary key plays no role in the sweep and is left empty. -/
def mkAlertEvent (r : AlertRule) (d : Device) : AlertEvent :=
  ⟨"", r.tenantId, d.id, r.id, r.severity, AlertStatus.OPEN, mkKey d.id r.id⟩

/-- One (rule, device) iteration: dedupe check against the existing events
plus this sweep's inserts so far, then the predicate, then the insert. -/
def evalPair (db : AlertDB) (now : Int) (acc : List AlertEvent)
    (r : AlertRule) (d : Device) : Option AlertEvent :=
  let key := mkKey d.id r.id
  if ((db.events ++ acc).find? fun e => decide (e.dedupeKey = key ∧
      (e.status = AlertStatus.OPEN ∨ e.status = AlertStatus.ACKNOWLEDGED))).isSome then
    none
  else if shouldFire db now r d then some (mkAlertEvent r d) else none

def evalStep (db : AlertDB) (now : Int) (acc : List AlertEvent)
    (p : AlertRule × Device) : List AlertEvent :=
  match evalPair db now acc p.1 p.2 with
  | some e => acc ++ [e]
  | none => acc

/-- The iteration sequence of the nested loops: enabled rules, each paired
with its tenant's ACTIVE/INSTALLED devices. -/
def sweepPairs (db : AlertDB) : List (AlertRule × Device) :=
  (db.rules.filter (·.enabled)).bind fun r =>
    (db.devices.filter fun d => decide (d.tenantId = r.tenantId ∧
      (d.status = DeviceStatus.ACTIVE ∨ d.status = DeviceStatus.INSTALLED))).map
      fun d => (r, d)

/-- A sweep of `evaluateAlerts`, returning the list of created events. -/
def evaluateAlerts (db : AlertDB) (now : Int) : List AlertEvent :=
  (sweepPairs db).foldl (evalStep db now) []

theorem colon_split {l1 l2 l3 l4 : List Char} (h1 : ':' ∉ l1) (h3 : ':' ∉ l3)
    (h : l1 ++ ':' :: l2 = l3 ++ ':' :: l4) : l1 = l3 ∧ l2 = l4 := by
  induction l1 generalizing l3 with
  | nil =>
    cases l3 with
    | nil => simpa using h
    | cons c t =>
      rw [List.nil_append] at h
      injection h with hc ht
      exact absurd (by rw [← hc]; exact List.mem_cons_self _ _) h3
  | cons a t ih =>
    cases l3 with
    | nil =>
      rw [List.nil_append] at h
      injection h with hc ht
      exact absurd (by rw [hc]; exact List.mem_cons_self _ _) h1
    | cons b t3 =>
      injection h with hc ht
      have hr := ih (fun hm => h1 (List.mem_cons_of_mem _ hm))
        (fun hm => h3 (List.mem_cons_of_mem _ hm)) ht
      exact ⟨by rw [hc, hr.1], hr.2⟩

theorem mkKey_data (d r : String) : (mkKey d r).data = d.data ++ ':' :: r.data := by
  unfold mkKey
  rw [String.data_append, String.data_append, List.append_assoc]
  rfl

/-- Dedupe keys are injective when device ids contain no colon. -/
theorem mkKey_inj {d1 r1 d2 r2 : String} (h1 : ':' ∉ d1.data) (h2 : ':' ∉ d2.data)
    (h : mkKey d1 r1 = mkKey d2 r2) : d1 = d2 ∧ r1 = r2 := by
  have hd := congrArg String.data h
  rw [mkKey_data, mkKey_data] at hd
  have hsplit := colon_split h1 h2 hd
  exact ⟨str_eq_of_data_eq hsplit.1, str_eq_of_data_eq hsplit.2⟩

theorem evalStep_sub (db : AlertDB) (now : Int) (acc : List AlertEvent)
    (p : AlertRule × Device) {e : AlertEvent} (he : e ∈ acc) :
    e ∈ evalStep db now acc p := by
  unfold evalStep
  split
  · exact List.mem_append_left _ he
  · exact he

theorem foldEval_mono (db : AlertDB) (now : Int) (pairs : List (AlertRule × Device))
    (acc : List AlertEvent) {e : AlertEvent} (he : e ∈ acc) :
    e ∈ pairs.foldl (evalStep db now) acc := by
  induction pairs generalizing acc with
  | nil => exact he
  | cons p ps ih => exact ih _ (evalStep_sub db now acc p he)

theorem evalPair_eq_some {db : AlertDB} {now : Int} {acc : List AlertEvent}
    {r : AlertRule} {d : Device} {e : AlertEvent}
    (h : evalPair db now acc r d = some e) : e = mkAlertEvent r d := by
  simp only [evalPair] at h
  split at h
  · cases h
  · split at h
    · injection h with h'
      exact h'.symm
    · cases h

theorem evalPair_of_find_none {db : AlertDB} {now : Int} {acc : List AlertEvent}
    {r : AlertRule} {d : Device}
    (hfind : ((db.events ++ acc).find? fun e => decide (e.dedupeKey = mkKey d.id r.id ∧
      (e.status = AlertStatus.OPEN ∨ e.status = AlertStatus.ACKNOWLEDGED))) = none) :
    evalPair db now acc r d =
      if shouldFire db now r d then some (mkAlertEvent r d) else none := by
  simp only [evalPair]
  rw [hfind]
  simp

theorem foldEval_shape (db : AlertDB) (now : Int) (pairs : List (AlertRule × Device))
    (acc : List AlertEvent) :
    ∀ e ∈ pairs.foldl (evalStep db now) acc,
      e ∈ acc ∨ ∃ p ∈ pairs, e = mkAlertEvent p.1 p.2 := by
  induction pairs generalizing acc with
  | nil => exact fun e he => Or.inl he
  | cons p ps ih =>
    intro e he
    rcases ih (evalStep db now acc p) e he with hacc | ⟨p', hp', hep'⟩
    · unfold evalStep at hacc
      split at hacc
      case h_1 e' heq =>
        rcases List.mem_append.mp hacc with h | h
        · exact Or.inl h
        · refine Or.inr ⟨p, List.mem_cons_self _ _, ?_⟩
          rcases List.mem_singleton.mp h with rfl
          exact evalPair_eq_some heq
      case h_2 => exact Or.inl hacc
    · exact Or.inr ⟨p', List.mem_cons_of_mem _ hp', hep'⟩

/-- Characterisation of the sweep fold for one dedupe key `K`: an event
with key `K` appears among the created events iff some visited pair has
that key and the designated pair's predicate fires. -/
theorem foldEval_key_iff (db : AlertDB) (now : Int) (r : AlertRule) (d : Device)
    (K : String) (hK : K = mkKey d.id r.id)
    (hdbev : ∀ e ∈ db.events, ¬ (e.dedupeKey = K ∧
      (e.status = AlertStatus.OPEN ∨ e.status = AlertStatus.ACKNOWLEDGED)))
    (pairs : List (AlertRule × Device)) (acc : List AlertEvent)
    (hacc : ∀ e ∈ acc, e.dedupeKey ≠ K)
    (hall : ∀ p ∈ pairs, mkKey p.2.id p.1.id = K → p = (r, d)) :
    ((∃ e ∈ pairs.foldl (evalStep db now) acc, e.dedupeKey = K) ↔
      ((∃ p ∈ pairs, mkKey p.2.id p.1.id = K) ∧ shouldFire db now r d = true)) := by
  induction pairs generalizing acc with
  | nil =>
    simp only [List.foldl_nil]
    constructor
    · rintro ⟨e, he, hek⟩
      exact absurd hek (hacc e he)
    · rintro ⟨⟨p, hp, _⟩, _⟩
      cases hp
  | cons p ps ih =>
    rw [List.foldl_cons]
    by_cases hpk : mkKey p.2.id p.1.id = K
    · have hp : p = (r, d) := hall p (List.mem_cons_self _ _) hpk
      have hfr : p.1 = r := by rw [hp]
      have hfd : p.2 = d := by rw [hp]
      have hfind : ((db.events ++ acc).find? fun e =>
          decide (e.dedupeKey = mkKey p.2.id p.1.id ∧
          (e.status = AlertStatus.OPEN ∨ e.status = AlertStatus.ACKNOWLEDGED))) = none := by
        rw [List.find?_eq_none]
        intro e he
        simp only [decide_eq_true_eq, not_and]
        intro hek
        rcases List.mem_append.mp he with h | h
        · exact fun hop => hdbev e h ⟨hpk ▸ hek, hop⟩
        · exact absurd (hpk ▸ hek) (hacc e h)
      have hsf : shouldFire db now p.1 p.2 = shouldFire db now r d := by
        rw [hfr, hfd]
      have hpair := @evalPair_of_find_none db now acc p.1 p.2 hfind
      by_cases hf : shouldFire db now r d = true
      · have hstep : evalStep db now acc p = acc ++ [mkAlertEvent p.1 p.2] := by
          unfold evalStep
          rw [hpair, hsf, if_pos hf]
        constructor
        · intro _
          exact ⟨⟨p, List.mem_cons_self _ _, hpk⟩, hf⟩
        · intro _
          refine ⟨mkAlertEvent p.1 p.2, ?_, ?_⟩
          · apply foldEval_mono
            rw [hstep]
            exact List.mem_append_right _ (List.mem_singleton.mpr rfl)
          · show (mkAlertEvent p.1 p.2).dedupeKey = K
            rw [← hpk]
            rfl
      · have hstep : evalStep db now acc p = acc := by
          unfold evalStep
          rw [hpair, hsf, if_neg hf]
        rw [hstep]
        have hih := ih acc hacc (fun q hq => hall q (List.mem_cons_of_mem _ hq))
        constructor
        · intro h
          exact absurd ((hih.mp h).2) hf
        · rintro ⟨_, hf'⟩
          exact absurd hf' hf
    · have hacc' : ∀ e ∈ evalStep db now acc p, e.dedupeKey ≠ K := by
        intro e he
        unfold evalStep at he
        split at he
        case h_1 e' heq =>
          rcases List.mem_append.mp he with h | h
          · exact hacc e h
          · rcases List.mem_singleton.mp h with rfl
            rw [evalPair_eq_some heq]
            show (mkAlertEvent p.1 p.2).dedupeKey ≠ K
            exact hpk
        case h_2 => exact hacc e he
      have hih := ih (evalStep db now acc p) hacc'
        (fun q hq => hall q (List.mem_cons_of_mem _ hq))
      rw [hih]
      constructor
      · rintro ⟨⟨q, hq, hqk⟩, hf⟩
        exact ⟨⟨q, List.mem_cons_of_mem _ hq, hqk⟩, hf⟩
      · rintro ⟨⟨q, hq, hqk⟩, hf⟩
        rcases List.mem_cons.mp hq with rfl | hq'
        · exact absurd hqk hpk
        · exact ⟨⟨q, hq', hqk⟩, hf⟩

/-- C8 (amended): during a sweep, for an enabled OVER_TEMP rule and a
device of its tenant with status ACTIVE or INSTALLED and no OPEN or
ACKNOWLEDGED event under the dedupe key, a new OPEN AlertEvent with the
rule's severity is created **iff** the twin's `lastTankTempC` is defined,
truthy (nonzero number, `true`, or non-empty string), and compares greater
than the effective threshold — `params.thresholdC` when present and
nonzero, else the configured default 85 (`overTempFire`).  Primary keys are
unique and device ids contain no colon (cuids). -/
theorem evaluateAlerts_overTemp_spec (db : AlertDB) (now : Int)
    (r : AlertRule) (d : Device)
    (hr : r ∈ db.rules) (hren : r.enabled = true) (hrt : r.rtype = AlertRuleType.OVER_TEMP)
    (hd : d ∈ db.devices) (hdt : d.tenantId = r.tenantId)
    (hds : d.status = DeviceStatus.ACTIVE ∨ d.status = DeviceStatus.INSTALLED)
    (hnoopen : ∀ e ∈ db.events, ¬ (e.dedupeKey = mkKey d.id r.id ∧
      (e.status = AlertStatus.OPEN ∨ e.status = AlertStatus.ACKNOWLEDGED)))
    (hrid : (db.rules.map (·.id)).Nodup) (hdid : (db.devices.map (·.id)).Nodup)
    (hdcolon : ∀ d' ∈ db.devices, ':' ∉ d'.id.data) :
    ((∃ e ∈ evaluateAlerts db now, e.dedupeKey = mkKey d.id r.id) ↔
      overTempFire db r d = true) ∧
    (∀ e ∈ evaluateAlerts db now, e.dedupeKey = mkKey d.id r.id →
      e = mkAlertEvent r d ∧ e.status = AlertStatus.OPEN ∧ e.severity = r.severity) := by
  have hmem : (r, d) ∈ sweepPairs db := by
    unfold sweepPairs
    apply List.mem_bind.mpr
    refine ⟨r, List.mem_filter.mpr ⟨hr, hren⟩, ?_⟩
    apply List.mem_map.mpr
    refine ⟨d, List.mem_filter.mpr ⟨hd, ?_⟩, rfl⟩
    simp only [decide_eq_true_eq]
    exact ⟨hdt, hds⟩
  have hall : ∀ p ∈ sweepPairs db, mkKey p.2.id p.1.id = mkKey d.id r.id → p = (r, d) := by
    intro p hp hkey
    unfold sweepPairs at hp
    rcases List.mem_bind.mp hp with ⟨r', hr', hmap⟩
    rcases List.mem_map.mp hmap with ⟨d', hd', hpd⟩
    have hr'm : r' ∈ db.rules := List.mem_of_mem_filter hr'
    have hd'm : d' ∈ db.devices := List.mem_of_mem_filter hd'
    rw [← hpd] at hkey ⊢
    have hids := mkKey_inj (hdcolon d' hd'm) (hdcolon d hd) hkey
    have hdeq : d' = d := List.inj_on_of_nodup_map hdid hd'm hd hids.1
    have hreq : r' = r := List.inj_on_of_nodup_map hrid hr'm hr hids.2
    rw [hdeq, hreq]
  have hsf : shouldFire db now r d = overTempFire db r d := by
    unfold shouldFire
    rw [hrt]
  have hiff := foldEval_key_iff db now r d (mkKey d.id r.id) rfl hnoopen
    (sweepPairs db) [] (fun e he => absurd he (List.not_mem_nil e)) hall
  constructor
  · rw [show evaluateAlerts db now = (sweepPairs db).foldl (evalStep db now) [] from rfl]
    rw [hiff]
    constructor
    · intro h
      rw [← hsf]
      exact h.2
    · intro h
      exact ⟨⟨(r, d), hmem, rfl⟩, by rw [hsf]; exact h⟩
  · intro e he hk
    rcases foldEval_shape db now (sweepPairs db) [] e he with h0 | ⟨p, hp, hep⟩
    · cases h0
    · have hpk : mkKey p.2.id p.1.id = mkKey d.id r.id := by
        rw [hep] at hk
        exact hk
      have hprd := hall p hp hpk
      rw [hprd] at hep
      exact ⟨hep, by rw [hep]; rfl, by rw [hep]; rfl⟩

/-- C8 counterexample rule: OVER_TEMP with `thresholdC = -5`. -/
def c8Rule : AlertRule :=
  ⟨"r1", "T1", "overtemp", true, AlertRuleType.OVER_TEMP,
    ⟨none, some (-5), none, none, none, none, none⟩, Severity.WARNING⟩

def c8Device : Device := ⟨"d1", "T1", DeviceStatus.ACTIVE, none, none, none⟩

/-- C8 counterexample state: the twin's `lastTankTempC` is defined and
equals 0, which exceeds the rule's threshold −5. -/
def c8DB : AlertDB :=
  ⟨[c8Rule], [c8Device], [("d1", [("lastTankTempC", MetricValue.num 0)])], [], []⟩

/-- C8 — counterexample.  `lastTankTempC = 0` is defined and strictly
greater than the rule's `thresholdC = -5`, so the claim requires a new OPEN
event, but the sweep creates none: JavaScript treats the value 0 as falsy in
`state?.lastTankTempC && …`. -/
theorem evaluateAlerts_overTemp_zero_no_alert :
    evaluateAlerts c8DB 0 = [] ∧
    c8Rule.enabled = true ∧ c8Rule.rtype = AlertRuleType.OVER_TEMP ∧
    c8Rule.params.thresholdC = some (-5) ∧
    c8Device.tenantId = c8Rule.tenantId ∧ c8Device.status = DeviceStatus.ACTIVE ∧
    c8DB.events = [] ∧
    ((c8DB.twins.find? fun p => decide (p.1 = c8Device.id)).map (·.2)).bind
      (fun st => aget st "lastTankTempC") = some (MetricValue.num 0) ∧
    ((-5 : Rat) < 0) := by
  refine ⟨?_, rfl, rfl, rfl, rfl, rfl, rfl, rfl, by decide⟩
  decide

def c8wRule : AlertRule :=
  ⟨"r2", "T2", "ot", true, AlertRuleType.OVER_TEMP,
    ⟨none, none, none, none, none, none, none⟩, Severity.CRITICAL⟩

def c8wDevice : Device := ⟨"d2", "T2", DeviceStatus.INSTALLED, none, none, none⟩

def c8wDB : AlertDB :=
  ⟨[c8wRule], [c8wDevice], [("d2", [("lastTankTempC", MetricValue.num 90)])], [], []⟩

/-- Witness for C8 (amended): a twin at 90 °C against the default threshold
85 fires and the sweep creates the OPEN event. -/
theorem evaluateAlerts_overTemp_spec_witness :
    ((∃ e ∈ evaluateAlerts c8wDB 0, e.dedupeKey = mkKey c8wDevice.id c8wRule.id) ↔
      overTempFire c8wDB c8wRule c8wDevice = true) ∧
    overTempFire c8wDB c8wRule c8wDevice = true ∧
    mkAlertEvent c8wRule c8wDevice ∈ evaluateAlerts c8wDB 0 := by
  have h := evaluateAlerts_overTemp_spec c8wDB 0 c8wRule c8wDevice
    (by decide) rfl rfl (by decide) rfl (Or.inr rfl)
    (by intro e he; cases he) (by decide) (by decide)
    (by intro d' hd'; rcases List.mem_singleton.mp hd' with rfl; decide)
  have hfire : overTempFire c8wDB c8wRule c8wDevice = true := by decide
  refine ⟨h.1, hfire, ?_⟩
  rcases h.1.mpr hfire with ⟨e, he, hk⟩
  obtain ⟨heq, _, _⟩ := h.2 e he hk
  exact heq ▸ he

end SSWH
